import Mathlib

/-!
Shallow embedding of the `linear-agent` Cloudflare worker (a webhook-driven
orchestrator bridging the Linear agent API to GitHub Actions) together with
proofs about its data model and handlers.

Conventions of the embedding:
- JavaScript strings are modelled as Lean `String`s (lists of characters);
  `toLowerCase`, `slice`, `includes` and template-literal number formatting
  are embedded as explicit character-list functions (`jsToLowerCase`,
  `jsSlice`, `jsIncludes`, `natToString`).  The ASCII fragment of
  `toLowerCase` is modelled; non-ASCII characters are left unchanged, which
  agrees with the source on every character class the code inspects.
- The D1 database is modelled as an explicit record of tables (lists of
  rows); each query function from `src/db/queries.ts` becomes a pure Lean
  function on that record.  SQL `datetime('now')` timestamps are modelled by
  an explicit `now : Nat` parameter threaded through the handlers.
- Outbound network calls (Linear activities, GitHub API) are modelled as an
  `Effect` trace emitted by the handlers, plus an `Env` record of read-only
  oracles for the values those calls would return.
- A JavaScript `throw` is modelled by an `Option String` error component in
  the handler's result; catching corresponds to matching on it.
-/

namespace LinearAgent

/-! ## JavaScript string primitives -/

/-- ASCII model of JS `String.prototype.toLowerCase` on a single character:
uppercase ASCII letters are shifted into lowercase, all other characters are
left unchanged. -/
def jsCharToLower (c : Char) : Char :=
  if 'A' ≤ c ∧ c ≤ 'Z' then Char.ofNat (c.toNat + 32) else c

/-- JS `s.toLowerCase()` (ASCII model). -/
def jsToLowerCase (s : String) : String :=
  ⟨s.data.map jsCharToLower⟩

/-- JS `s.slice(n)`: drop the first `n` code units. -/
def jsSlice (s : String) (n : Nat) : String :=
  ⟨s.data.drop n⟩

/-- JS `s.includes(sub)`: `sub` occurs contiguously inside `s`. -/
def jsIncludes (s sub : String) : Bool :=
  decide (sub.data <:+: s.data)

/-- JS `s.startsWith(p)`. -/
def jsStartsWith (s p : String) : Bool :=
  p.data.isPrefixOf s.data

/-- JS string truthiness for an optional string column / header:
`null`/`undefined` and the empty string are falsy. -/
def jsFalsyStr : Option String → Bool
  | none => true
  | some s => s == ""

/-- JS number truthiness for an optional numeric column: `null`/`undefined`
and `0` are falsy. -/
def jsFalsyNat : Option Nat → Bool
  | none => true
  | some n => n == 0

/-- JS `a || b` for an optional string (used for fallback defaults). -/
def jsOrElse (o : Option String) (d : String) : String :=
  match o with
  | none => d
  | some s => if s == "" then d else s

/-- Decimal digit character, for the template-literal rendering of a JS
number. -/
def digitChar : Nat → Char
  | 0 => '0' | 1 => '1' | 2 => '2' | 3 => '3' | 4 => '4'
  | 5 => '5' | 6 => '6' | 7 => '7' | 8 => '8' | _ => '9'

/-- Little-endian decimal digits of a natural number; structural recursion
on a fuel argument bounded below by the number itself. -/
def natDigitsLEFuel : Nat → Nat → List Char
  | 0, n => [digitChar n]
  | fuel + 1, n =>
    if n < 10 then [digitChar n]
    else digitChar (n % 10) :: natDigitsLEFuel fuel (n / 10)

/-- Little-endian decimal digits of a natural number. -/
def natDigitsLE (n : Nat) : List Char :=
  natDigitsLEFuel n n

/-- Decimal rendering of a natural number, as produced by a JS template
literal `${n}` for a non-negative integer. -/
def natToString (n : Nat) : String :=
  ⟨(natDigitsLE n).reverse⟩

/-- Decode little-endian decimal digits back to a number. -/
def decodeDigitsLE : List Char → Nat
  | [] => 0
  | c :: cs => (c.toNat - 48) + 10 * decodeDigitsLE cs

/-! ## Branch Namer (`src/utils/branch.ts`) -/

/-- The character class `[a-z0-9-]` of the sanitising regex. -/
def isBranchClassChar (c : Char) : Bool :=
  ('a' ≤ c && c ≤ 'z') || ('0' ≤ c && c ≤ '9') || c == '-'

/-- `identifier.toLowerCase().replace(/[^a-z0-9-]/g, '-')`. -/
def sanitizeIdentifier (identifier : String) : String :=
  ⟨(jsToLowerCase identifier).data.map (fun c => if isBranchClassChar c then c else '-')⟩

/-- `generateBranchName` from `src/utils/branch.ts`: sanitise the Linear
issue identifier and prefix it with `agent/`. -/
def generateBranchName (identifier : String) : String :=
  "agent/" ++ sanitizeIdentifier identifier

/-- The candidate name `${baseName}-${suffix}`. -/
def suffixedName (baseName : String) (suffix : Nat) : String :=
  baseName ++ "-" ++ natToString suffix

/-- The `while`-loop of `findAvailableBranchName`, probing suffixes upward
from `s`; the fuel argument only bounds the recursion and is chosen large
enough (one more than the number of existing branches) that it is never
exhausted. Returns the first suffix whose name is unused. -/
def probeSuffix (baseName : String) (existingBranches : List String) :
    Nat → Nat → Nat
  | 0, s => s
  | fuel + 1, s =>
    if existingBranches.contains (suffixedName baseName s) then
      probeSuffix baseName existingBranches fuel (s + 1)
    else s

/-- `findAvailableBranchName` from `src/utils/branch.ts`: the base name if
unused, otherwise the first unused of `base-2`, `base-3`, …. -/
def findAvailableBranchName (identifier : String) (existingBranches : List String) :
    String :=
  if !existingBranches.contains (generateBranchName identifier) then
    generateBranchName identifier
  else
    suffixedName (generateBranchName identifier)
      (probeSuffix (generateBranchName identifier) existingBranches
        (existingBranches.length + 1) 2)

/-- The executable transcription of the regex `^agent/[a-z0-9-]+$`. -/
def matchesBranchPattern (s : String) : Bool :=
  match s.data with
  | 'a' :: 'g' :: 'e' :: 'n' :: 't' :: '/' :: rest =>
    !rest.isEmpty && rest.all isBranchClassChar
  | _ => false

/-! ## Signature Verifier (`src/utils/crypto.ts`)

`crypto.subtle`'s HMAC-SHA256 is the platform primitive; the embedding takes
it as an abstract parameter `hmac : String → String → List UInt8` mapping
`(secret, body)` to the digest bytes.  The hex encoding and the comparison
are embedded from the source. -/

/-- One lowercase hex digit. -/
def hexDigitChar : Nat → Char
  | 0 => '0' | 1 => '1' | 2 => '2' | 3 => '3' | 4 => '4'
  | 5 => '5' | 6 => '6' | 7 => '7' | 8 => '8' | 9 => '9'
  | 10 => 'a' | 11 => 'b' | 12 => 'c' | 13 => 'd' | 14 => 'e' | _ => 'f'

/-- `byte.toString(16).padStart(2, '0')` for a byte: exactly two lowercase
hex digits. -/
def byteToHex (b : UInt8) : List Char :=
  [hexDigitChar (b.toNat / 16), hexDigitChar (b.toNat % 16)]

/-- `arrayBufferToHex` from `src/utils/crypto.ts`: map each byte to its
two-digit lowercase hex form and join. -/
def arrayBufferToHex (bytes : List UInt8) : String :=
  ⟨(bytes.map byteToHex).flatten⟩

/-- `timingSafeEqual` from `src/utils/crypto.ts`: unequal lengths fail
immediately; otherwise OR-accumulate the XOR of the character codes and
compare the accumulator with zero. -/
def timingSafeEqual (a b : String) : Bool :=
  if a.length ≠ b.length then false
  else
    ((a.data.zip b.data).foldl
      (fun result p => result ||| (p.1.toNat ^^^ p.2.toNat)) 0) == 0

/-- `verifyLinearSignature`: constant-time comparison of the signature
header with the lowercase hex digest of HMAC-SHA256(secret, body). -/
def verifyLinearSignature (hmac : String → String → List UInt8)
    (body signature secret : String) : Bool :=
  timingSafeEqual signature (arrayBufferToHex (hmac secret body))

/-- `verifyGitHubSignature`: requires the literal `sha256=` prefix, strips
it, and compares the rest with the lowercase hex digest. -/
def verifyGitHubSignature (hmac : String → String → List UInt8)
    (body signature secret : String) : Bool :=
  if !jsStartsWith signature "sha256=" then false
  else timingSafeEqual (jsSlice signature 7) (arrayBufferToHex (hmac secret body))

/-! ## Correlation Store data model (`src/db/schema.sql`, `src/db/queries.ts`)

Each table is a list of rows; `datetime('now')` columns carry the `now : Nat`
in effect when the row was written. -/

/-- A row of `workflow_runs`. -/
structure WorkflowRun where
  id : Nat
  github_run_id : Nat
  github_owner : String
  github_repo : String
  agent_session_id : String
  linear_issue_id : String
  linear_issue_identifier : String
  linear_workspace_id : Option String
  workflow_type : String
  branch_name : String
  status : String
  conclusion : Option String
  pr_number : Option Nat
  pr_url : Option String
  created_at : Nat
  updated_at : Nat
deriving DecidableEq, Repr

/-- A row of `pending_workflow_triggers`. -/
structure PendingWorkflowTrigger where
  id : Nat
  agent_session_id : String
  linear_workspace_id : Option String
  linear_issue_id : String
  linear_issue_identifier : Option String
  workflow_type : String
  github_owner : String
  github_repo : String
  branch_name : String
  created_at : Nat
  matched_at : Option Nat
deriving DecidableEq, Repr

/-- A row of `github_installations`. -/
structure GitHubInstallation where
  installation_id : Nat
  account_login : String
  account_type : String
deriving DecidableEq, Repr

/-- A row of `pending_configs`. -/
structure PendingConfig where
  agent_session_id : String
  linear_workspace_id : String
  linear_team_id : String
  pending_issue_id : String
  pending_issue_identifier : String
deriving DecidableEq, Repr

/-- A row of `team_configs`. -/
structure TeamConfig where
  linear_workspace_id : String
  linear_team_id : String
  github_installation_id : Option Nat
  github_owner : Option String
  github_repo : Option String
  github_branch : String
deriving DecidableEq, Repr

/-- A row of `run_log`. -/
structure RunLogEntry where
  workflow_run_id : Option Nat
  agent_session_id : Option String
  event_type : String
  message : Option String
  created_at : Nat
deriving DecidableEq, Repr

/-- The D1 database: one list per table the core touches. -/
structure DBState where
  workflowRuns : List WorkflowRun
  pendingTriggers : List PendingWorkflowTrigger
  installations : List GitHubInstallation
  pendingConfigs : List PendingConfig
  processedWebhooks : List (String × String)
  runLog : List RunLogEntry
deriving DecidableEq, Repr

/-- `getWorkflowRun`: `SELECT * FROM workflow_runs WHERE github_run_id = ?`
(the column is UNIQUE, so the first match is the row). -/
def getWorkflowRun (runs : List WorkflowRun) (githubRunId : Nat) :
    Option WorkflowRun :=
  runs.find? (fun r => r.github_run_id == githubRunId)

/-- The accumulator step of `ORDER BY created_at DESC LIMIT 1` as the
embedding folds it: keep the row with the greatest sort key. -/
def latestStep {α : Type} (f : α → Nat) (acc : Option α) (x : α) : Option α :=
  match acc with
  | none => some x
  | some b => if f x > f b then some x else acc

/-- `getActiveWorkflowRunByIssue`: most recently created run for the issue
whose status is not `'completed'`. -/
def getActiveWorkflowRunByIssue (runs : List WorkflowRun) (linearIssueId : String) :
    Option WorkflowRun :=
  (runs.filter (fun r =>
      r.linear_issue_id == linearIssueId && r.status != "completed")).foldl
    (latestStep (fun r => r.created_at)) none

/-- The update record accepted by `updateWorkflowRun`; a `none` field was
not in the update (undefined), `some` is an assignment (possibly to NULL). -/
structure WorkflowRunUpdate where
  status : Option String := none
  conclusion : Option (Option String) := none
  prNumber : Option (Option Nat) := none
  prUrl : Option (Option String) := none
deriving DecidableEq, Repr

/-- Apply the SET clauses of `updateWorkflowRun` to one row, advancing
`updated_at`. -/
def applyWorkflowRunUpdate (u : WorkflowRunUpdate) (now : Nat) (r : WorkflowRun) :
    WorkflowRun :=
  { r with
    status := u.status.getD r.status
    conclusion := u.conclusion.getD r.conclusion
    pr_number := u.prNumber.getD r.pr_number
    pr_url := u.prUrl.getD r.pr_url
    updated_at := now }

/-- `updateWorkflowRun`: unconditional `UPDATE workflow_runs SET … WHERE
github_run_id = ?` (a no-op when the update record is empty, mirroring the
early return on zero SET clauses). -/
def updateWorkflowRun (runs : List WorkflowRun) (githubRunId : Nat)
    (u : WorkflowRunUpdate) (now : Nat) : List WorkflowRun :=
  if u.status == none && u.conclusion == none && u.prNumber == none
      && u.prUrl == none then runs
  else
    runs.map (fun r =>
      if r.github_run_id == githubRunId then applyWorkflowRunUpdate u now r else r)

/-- `updateWorkflowRun`, lifted to the database record. -/
def updateWorkflowRun' (st : DBState) (githubRunId : Nat)
    (u : WorkflowRunUpdate) (now : Nat) : DBState :=
  { st with workflowRuns := updateWorkflowRun st.workflowRuns githubRunId u now }

/-- The insert record of `createWorkflowRun`. -/
structure WorkflowRunInsert where
  githubRunId : Nat
  githubOwner : String
  githubRepo : String
  agentSessionId : String
  linearIssueId : String
  linearIssueIdentifier : String
  linearWorkspaceId : Option String
  workflowType : String
  branchName : String
deriving DecidableEq, Repr

/-- `createWorkflowRun`: INSERT with defaults `status='queued'`,
`conclusion/pr_number/pr_url` NULL, RETURNING the new row.  Autoincrement is
modelled as one past the table length. -/
def createWorkflowRun (runs : List WorkflowRun) (ins : WorkflowRunInsert)
    (now : Nat) : List WorkflowRun × WorkflowRun :=
  let row : WorkflowRun :=
    { id := runs.length + 1
      github_run_id := ins.githubRunId
      github_owner := ins.githubOwner
      github_repo := ins.githubRepo
      agent_session_id := ins.agentSessionId
      linear_issue_id := ins.linearIssueId
      linear_issue_identifier := ins.linearIssueIdentifier
      linear_workspace_id := ins.linearWorkspaceId
      workflow_type := ins.workflowType
      branch_name := ins.branchName
      status := "queued"
      conclusion := none
      pr_number := none
      pr_url := none
      created_at := now
      updated_at := now }
  (runs ++ [row], row)

/-- `matchPendingWorkflowTrigger`: among unmatched triggers whose
`(github_owner, github_repo, branch_name)` equal the event's coordinates,
the one with the greatest `created_at` (`ORDER BY created_at DESC LIMIT 1`). -/
def matchPendingWorkflowTrigger (triggers : List PendingWorkflowTrigger)
    (githubOwner githubRepo branchName : String) : Option PendingWorkflowTrigger :=
  (triggers.filter (fun t =>
      t.github_owner == githubOwner && t.github_repo == githubRepo
        && t.branch_name == branchName && t.matched_at == none)).foldl
    (latestStep (fun t => t.created_at)) none

/-- `markPendingWorkflowMatched`: set `matched_at = datetime('now')` on the
trigger with the given id. -/
def markPendingWorkflowMatched (triggers : List PendingWorkflowTrigger)
    (id : Nat) (now : Nat) : List PendingWorkflowTrigger :=
  triggers.map (fun t => if t.id == id then { t with matched_at := some now } else t)

/-- `isWebhookProcessed`: membership in `processed_webhooks`. -/
def isWebhookProcessed (st : DBState) (webhookId webhookType : String) : Bool :=
  st.processedWebhooks.contains (webhookId, webhookType)

/-- `markWebhookProcessed`: `INSERT OR IGNORE` of the dedup marker. -/
def markWebhookProcessed (st : DBState) (webhookId webhookType : String) : DBState :=
  if st.processedWebhooks.contains (webhookId, webhookType) then st
  else { st with processedWebhooks := st.processedWebhooks ++ [(webhookId, webhookType)] }

/-- `getGitHubInstallationByAccount`. -/
def getGitHubInstallationByAccount (installs : List GitHubInstallation)
    (accountLogin : String) : Option GitHubInstallation :=
  installs.find? (fun i => i.account_login == accountLogin)

/-- `deletePendingConfig`. -/
def deletePendingConfig (st : DBState) (agentSessionId : String) : DBState :=
  { st with pendingConfigs :=
      st.pendingConfigs.filter (fun p => p.agent_session_id != agentSessionId) }

/-- `logEvent`: append a `run_log` row. -/
def logEvent (st : DBState) (workflowRunId : Option Nat)
    (agentSessionId : Option String) (eventType : String)
    (message : Option String) (now : Nat) : DBState :=
  { st with runLog := st.runLog ++
      [{ workflow_run_id := workflowRunId
         agent_session_id := agentSessionId
         event_type := eventType
         message := message
         created_at := now }] }

/-- The insert record of `createPendingWorkflowTrigger`. -/
structure PendingTriggerInsert where
  agentSessionId : String
  linearWorkspaceId : Option String
  linearIssueId : String
  linearIssueIdentifier : Option String
  workflowType : String
  githubOwner : String
  githubRepo : String
  branchName : String
deriving DecidableEq, Repr

/-- `createPendingWorkflowTrigger`: `INSERT OR REPLACE` keyed by
`(agent_session_id, workflow_type)` — any row with the same key is replaced;
the new row is unmatched, with a fresh id and `created_at = now`. -/
def createPendingWorkflowTrigger (st : DBState) (ins : PendingTriggerInsert)
    (now : Nat) : DBState :=
  let newId := (st.pendingTriggers.map (fun t => t.id)).foldr max 0 + 1
  let row : PendingWorkflowTrigger :=
    { id := newId
      agent_session_id := ins.agentSessionId
      linear_workspace_id := ins.linearWorkspaceId
      linear_issue_id := ins.linearIssueId
      linear_issue_identifier := ins.linearIssueIdentifier
      workflow_type := ins.workflowType
      github_owner := ins.githubOwner
      github_repo := ins.githubRepo
      branch_name := ins.branchName
      created_at := now
      matched_at := none }
  { st with pendingTriggers :=
      (st.pendingTriggers.filter (fun u =>
        !(u.agent_session_id == ins.agentSessionId
          && u.workflow_type == ins.workflowType))) ++ [row] }

/-! ## External collaborators

Outbound calls are recorded as an `Effect` trace; the values a call would
return are supplied by a read-only `Env` oracle. -/

/-- An open pull request as returned by the GitHub API. -/
structure PullRequest where
  number : Nat
  html_url : String
  title : String
  head_ref : String
deriving DecidableEq, Repr

/-- One outbound call made by a handler, in program order. -/
inductive Effect where
  | fetchIssueContext (issueId : String)
  | listBranches (owner repo : String)
  | sendAction (sessionId action parameter : String)
  | sendThought (sessionId body : String)
  | sendResponse (sessionId body : String)
  | sendElicitation (sessionId body : String)
  | sendError (sessionId body : String)
  | createAttachment (issueId title url : String)
  | cancelRun (installationId : Nat) (owner repo : String) (runId : Nat)
  | dispatchWorkflow (owner repo workflowId ref branchName : String)
deriving DecidableEq, Repr

/-- The issue context fetched from Linear (the fields the dispatch path
reads). -/
structure IssueContext where
  identifier : String
  title : String
  description : Option String
deriving DecidableEq, Repr

/-- Read-only oracles for the values outbound calls return. -/
structure Env where
  /-- `getOAuthToken`: workspace id → stored token, if any. -/
  oauthToken : String → Option String
  /-- The repository's open pull requests, as the GitHub list endpoint
  returns them (newest first). -/
  openPRs : List PullRequest
  /-- `linear.getIssueContext`. -/
  issueContext : String → IssueContext
  /-- `github.listBranches` result for the configured repository. -/
  branches : List String

/-- `GitHubAppService.listPullRequestsForBranch`: models
`GET /pulls?head=owner:branch&state=open` — the open pull requests whose
head branch equals `branch`. -/
def listPullRequestsForBranch (openPRs : List PullRequest) (branch : String) :
    List PullRequest :=
  openPRs.filter (fun pr => pr.head_ref == branch)

/-- `GitHubAppService.searchPullRequestsByTitle`: fetches the first page of
open pull requests (`per_page=10`) and keeps those whose lowercased title
contains the lowercased search term. -/
def searchPullRequestsByTitle (openPRs : List PullRequest) (searchTerm : String) :
    List PullRequest :=
  (openPRs.take 10).filter (fun pr =>
    jsIncludes (jsToLowerCase pr.title) (jsToLowerCase searchTerm))

/-! ## Workflow Orchestrator (`src/services/workflow.ts`) -/

/-- `WorkflowService.triggerImplementation`.  Result is
`(state, effect trace, thrown error?)`; the missing-configuration guard is
the first statement, so on that error the state is unchanged and the trace
is empty. -/
def triggerImplementation (env : Env) (st : DBState)
    (agentSessionId issueId issueIdentifier : String) (config : TeamConfig)
    (now : Nat) : DBState × List Effect × Option String :=
  if jsFalsyStr config.github_owner || jsFalsyStr config.github_repo
      || jsFalsyNat config.github_installation_id then
    (st, [], some "Team config missing GitHub configuration")
  else
    let owner := config.github_owner.getD ""
    let repo := config.github_repo.getD ""
    let _ctx := env.issueContext issueId
    let branchName := findAvailableBranchName issueIdentifier env.branches
    let st := logEvent st none (some agentSessionId) "workflow_trigger"
      (some ("Triggering implementation workflow for " ++ issueIdentifier)) now
    let st := createPendingWorkflowTrigger st
      { agentSessionId := agentSessionId
        linearWorkspaceId := some config.linear_workspace_id
        linearIssueId := issueId
        linearIssueIdentifier := some issueIdentifier
        workflowType := "implement"
        githubOwner := owner
        githubRepo := repo
        branchName := config.github_branch } now
    (st,
      [Effect.fetchIssueContext issueId,
       Effect.listBranches owner repo,
       Effect.sendAction agentSessionId "Starting" "Implementation workflow",
       Effect.dispatchWorkflow owner repo "linear-agent.yml" config.github_branch
         branchName],
      none)

/-- `WorkflowService.cancelWorkflow`: cancel the remote run, force the
record to `completed/cancelled`, notify Linear, log. -/
def cancelWorkflow (st : DBState) (run : WorkflowRun) (installationId : Nat)
    (now : Nat) : DBState × List Effect :=
  let st := updateWorkflowRun' st run.github_run_id
    { status := some "completed", conclusion := some (some "cancelled") } now
  let st := logEvent st none (some run.agent_session_id) "workflow_cancelled"
    (some "Workflow cancelled by user unassign") now
  (st,
    [Effect.cancelRun installationId run.github_owner run.github_repo
       run.github_run_id,
     Effect.sendThought run.agent_session_id "Workflow cancelled"])

/-- The GitHub run link the failure response embeds:
`https://github.com/{owner}/{repo}/actions/runs/{runId}`. -/
def workflowRunUrl (owner repo : String) (runId : Nat) : String :=
  "https://github.com/" ++ owner ++ "/" ++ repo ++ "/actions/runs/"
    ++ natToString runId

/-- The PR-candidate selection of `handleWorkflowComplete`: the open PRs on
the run's branch; when that list is empty and the run's Linear identifier is
truthy (nonempty), the title search instead. -/
def chooseCompletionPRs (env : Env) (run : WorkflowRun) : List PullRequest :=
  if (listPullRequestsForBranch env.openPRs run.branch_name).isEmpty
      && run.linear_issue_identifier != "" then
    searchPullRequestsByTitle env.openPRs run.linear_issue_identifier
  else listPullRequestsForBranch env.openPRs run.branch_name

/-- `WorkflowService.handleWorkflowComplete`. -/
def handleWorkflowComplete (env : Env) (st : DBState) (run : WorkflowRun)
    (conclusion : String) (now : Nat) : DBState × List Effect :=
  let completed : DBState × List Effect :=
    if conclusion == "success" then
      match chooseCompletionPRs env run with
      | pr :: _ =>
        let st := updateWorkflowRun' st run.github_run_id
          { status := some "completed", conclusion := some (some conclusion)
            prNumber := some (some pr.number), prUrl := some (some pr.html_url) }
          now
        (st,
          [Effect.createAttachment run.linear_issue_id
             ("PR #" ++ natToString pr.number) pr.html_url,
           Effect.sendResponse run.agent_session_id
             ("✅ Implementation complete!\n\n[PR #" ++ natToString pr.number
               ++ ": " ++ run.linear_issue_identifier ++ "](" ++ pr.html_url
               ++ ")")])
      | [] =>
        let st := updateWorkflowRun' st run.github_run_id
          { status := some "completed", conclusion := some (some conclusion) } now
        (st,
          [Effect.sendResponse run.agent_session_id
             "✅ Analysis complete! No code changes were necessary."])
    else
      let st := updateWorkflowRun' st run.github_run_id
        { status := some "completed", conclusion := some (some conclusion) } now
      (st,
        [Effect.sendError run.agent_session_id
           ("❌ Workflow " ++ conclusion ++ ".\n\n[View logs]("
             ++ workflowRunUrl run.github_owner run.github_repo run.github_run_id
             ++ ")")])
  (logEvent completed.1 (some run.id) (some run.agent_session_id)
     "workflow_completed"
     (some ("Workflow completed with conclusion: " ++ conclusion)) now,
   completed.2)

/-! ## GitHub webhook handler (`src/handlers/github-webhook.ts`) -/

/-- The fields of a `workflow_run` webhook the handler reads. -/
structure WorkflowRunEvent where
  action : String
  runId : Nat
  conclusion : Option String
  owner : String
  repo : String
  headBranch : String
  installationId : Nat
deriving DecidableEq, Repr

/-- The correlation step of `handleWorkflowRun` (the `if (!workflowRun)`
block): look the run up by run id; if absent, try to match a pending
trigger, create the run from the trigger's fields and mark the trigger
matched; with no match, drop the event.  Returns the (found or created) run,
if any. -/
def correlateWorkflowRun (st : DBState) (ev : WorkflowRunEvent) (now : Nat) :
    DBState × Option WorkflowRun :=
  match getWorkflowRun st.workflowRuns ev.runId with
  | some r => (st, some r)
  | none =>
    match matchPendingWorkflowTrigger st.pendingTriggers ev.owner ev.repo
        ev.headBranch with
    | some t =>
      let created := createWorkflowRun st.workflowRuns
        { githubRunId := ev.runId
          githubOwner := ev.owner
          githubRepo := ev.repo
          agentSessionId := t.agent_session_id
          linearIssueId := t.linear_issue_id
          linearIssueIdentifier := t.linear_issue_identifier.getD ""
          linearWorkspaceId := t.linear_workspace_id
          workflowType := "implement"
          branchName := ev.headBranch } now
      ({ st with
          workflowRuns := created.1
          pendingTriggers :=
            markPendingWorkflowMatched st.pendingTriggers t.id now },
        some created.2)
    | none => (st, none)

/-- `handleWorkflowRun`: correlate, resolve the workspace OAuth token, then
either advance to `in_progress` (with a "Running" action) or run the
completion flow. -/
def handleWorkflowRun (env : Env) (st : DBState) (ev : WorkflowRunEvent)
    (now : Nat) : DBState × List Effect :=
  let correlated := correlateWorkflowRun st ev now
  match correlated.2 with
  | none => (correlated.1, [])
  | some run =>
    match run.linear_workspace_id.bind env.oauthToken with
    | none => (correlated.1, [])
    | some _token =>
      if ev.action == "in_progress" then
        (updateWorkflowRun' correlated.1 ev.runId { status := some "in_progress" }
          now,
         [Effect.sendAction run.agent_session_id "Running" "Claude Code"])
      else if ev.action == "completed" then
        handleWorkflowComplete env correlated.1 run (jsOrElse ev.conclusion "unknown")
          now
      else (correlated.1, [])

/-! ## Unassignment handler (`src/handlers/inbox-notification.ts`) -/

/-- The part of `handleInboxNotification` after the `agent_unassigned` log
entry: look up the active run for the issue, and — when one exists and its
installation, workspace and token resolve — cancel it and drop any
lingering pending config. -/
def handleInboxNotificationCore (env : Env) (st : DBState) (issueId : String)
    (now : Nat) : DBState × List Effect :=
  match getActiveWorkflowRunByIssue st.workflowRuns issueId with
  | none => (st, [])
  | some run =>
    match getGitHubInstallationByAccount st.installations run.github_owner with
    | none => (st, [])
    | some inst =>
      match run.linear_workspace_id with
      | none => (st, [])
      | some workspaceId =>
        match env.oauthToken workspaceId with
        | none => (st, [])
        | some _token =>
          let cancelled := cancelWorkflow st run inst.installation_id now
          (deletePendingConfig cancelled.1 run.agent_session_id, cancelled.2)

/-- `handleInboxNotification`: log the unassignment, then run the
cancellation flow on the logged state. -/
def handleInboxNotification (env : Env) (st : DBState)
    (issueId issueIdentifier : String) (now : Nat) : DBState × List Effect :=
  handleInboxNotificationCore env
    (logEvent st none none "agent_unassigned"
      (some ("Agent unassigned from " ++ issueIdentifier)) now) issueId now

/-! ## Top-level webhook endpoints

The event routers (`handleLinearWebhook`, `handleGitHubWebhook`) verify the
signature, consult and write the idempotency ledger, then run the routed
handler.  The routed handler — which may throw — is abstracted as a function
returning `(state, effects, thrown error?)`. -/

/-- An HTTP response: status code and the `status` field of the JSON body. -/
structure HttpResponse where
  status : Nat
  tag : String
deriving DecidableEq, Repr

/-- A parsed Linear webhook payload, discriminated as the source's type
guards do. -/
inductive LinearWebhook where
  /-- `type === 'AgentSessionEvent'`. -/
  | agentSession (action sessionId : String) (activityId : Option String)
      (issueId issueIdentifier teamId : String)
  /-- `type === 'AppUserNotification' && action === 'issueUnassignedFromYou'`. -/
  | unassign (issueId issueIdentifier : String)
  /-- Anything else. -/
  | other (type : String)
deriving DecidableEq, Repr

/-- `generateWebhookId`: the dedup id for a Linear webhook. Session events
are keyed by session id and action (plus the activity id for prompts);
unassignment and unknown events mix in `Date.now()`. -/
def generateWebhookId (payload : LinearWebhook) (now : Nat) : String :=
  match payload with
  | .agentSession action sessionId activityId _ _ _ =>
    if action == "prompted" then
      match activityId with
      | some a => "linear-session-" ++ sessionId ++ "-prompted-" ++ a
      | none => "linear-session-" ++ sessionId ++ "-" ++ action
    else "linear-session-" ++ sessionId ++ "-" ++ action
  | .unassign issueId _ => "linear-unassign-" ++ issueId ++ "-" ++ natToString now
  | .other _ => "linear-unknown-" ++ natToString now

/-- The session id the Linear error path attaches to its `webhook_error`
log entry. -/
def linearErrorSessionId : LinearWebhook → Option String
  | .agentSession _ sessionId _ _ _ _ => some sessionId
  | _ => none

/-- `handleLinearWebhook`.  `inner` abstracts the routed event handlers
(the type/action dispatch); `logFails` models the best-effort error log
itself failing (its exception is swallowed). -/
def handleLinearWebhook (hmac : String → String → List UInt8) (secret : String)
    (inner : LinearWebhook → DBState → DBState × List Effect × Option String)
    (logFails : Bool) (st : DBState) (body signature : String)
    (payload : LinearWebhook) (now : Nat) : DBState × HttpResponse × List Effect :=
  if !verifyLinearSignature hmac body signature secret then
    (st, { status := 401, tag := "error" }, [])
  else if isWebhookProcessed st (generateWebhookId payload now) "linear" then
    (st, { status := 200, tag := "already_processed" }, [])
  else
    match inner payload
        (markWebhookProcessed st (generateWebhookId payload now) "linear") with
    | (st2, effects, none) => (st2, { status := 200, tag := "ok" }, effects)
    | (st2, effects, some err) =>
      (if logFails then st2
       else logEvent st2 none (linearErrorSessionId payload) "webhook_error"
        (some ("Error handling webhook: " ++ err)) now,
       { status := 200, tag := "error" }, effects)

/-- `handleGitHubWebhook`.  The dedup id is
`github-{eventType}-{deliveryId}`, the delivery id falling back to
`Date.now()` when the header is absent or empty; the catch block only logs
to the console, so a thrown handler error reaches neither the ledger nor
`run_log`. -/
def handleGitHubWebhook (hmac : String → String → List UInt8) (secret : String)
    (inner : DBState → DBState × List Effect × Option String) (st : DBState)
    (body signature eventType : String) (deliveryId : Option String)
    (now : Nat) : DBState × HttpResponse × List Effect :=
  if !verifyGitHubSignature hmac body signature secret then
    (st, { status := 401, tag := "error" }, [])
  else if isWebhookProcessed st
      ("github-" ++ eventType ++ "-" ++ jsOrElse deliveryId (natToString now))
      "github" then
    (st, { status := 200, tag := "already_processed" }, [])
  else
    match inner (markWebhookProcessed st
        ("github-" ++ eventType ++ "-" ++ jsOrElse deliveryId (natToString now))
        "github") with
    | (st2, effects, none) => (st2, { status := 200, tag := "ok" }, effects)
    | (st2, effects, some _err) =>
      (st2, { status := 200, tag := "error" }, effects)

/-! ## Concrete instances for closed examples -/

/-- The character class of a lowercase hex digest. -/
def isHexLowerChar (c : Char) : Bool :=
  ('0' ≤ c && c ≤ '9') || ('a' ≤ c && c ≤ 'f')

/-- A concrete `workflow_runs` row used by closed examples. -/
def sampleRun (gid : Nat) (issueId status : String) : WorkflowRun :=
  { id := 1
    github_run_id := gid
    github_owner := "acme"
    github_repo := "api"
    agent_session_id := "sess-1"
    linear_issue_id := issueId
    linear_issue_identifier := "ABC-1"
    linear_workspace_id := some "ws-1"
    workflow_type := "implement"
    branch_name := "agent/abc-1"
    status := status
    conclusion := none
    pr_number := none
    pr_url := none
    created_at := 0
    updated_at := 0 }

/-- The `workflow_runs` row the correlation step inserts for a matched
trigger `t` and event `ev`. -/
def correlatedRow (st : DBState) (ev : WorkflowRunEvent)
    (t : PendingWorkflowTrigger) (now : Nat) : WorkflowRun :=
  (createWorkflowRun st.workflowRuns
    { githubRunId := ev.runId
      githubOwner := ev.owner
      githubRepo := ev.repo
      agentSessionId := t.agent_session_id
      linearIssueId := t.linear_issue_id
      linearIssueIdentifier := t.linear_issue_identifier.getD ""
      linearWorkspaceId := t.linear_workspace_id
      workflowType := "implement"
      branchName := ev.headBranch } now).2

/-- An empty database, for closed examples. -/
def emptyDB : DBState :=
  { workflowRuns := []
    pendingTriggers := []
    installations := []
    pendingConfigs := []
    processedWebhooks := []
    runLog := [] }

/-- A concrete pending trigger for closed examples. -/
def sampleTrigger : PendingWorkflowTrigger :=
  { id := 1
    agent_session_id := "sess-1"
    linear_workspace_id := some "ws-1"
    linear_issue_id := "iss-1"
    linear_issue_identifier := some "ABC-1"
    workflow_type := "implement"
    github_owner := "acme"
    github_repo := "api"
    branch_name := "main"
    created_at := 5
    matched_at := none }

/-- A concrete `workflow_run` event for closed examples. -/
def sampleEvent : WorkflowRunEvent :=
  { action := "queued"
    runId := 99
    conclusion := none
    owner := "acme"
    repo := "api"
    headBranch := "main"
    installationId := 1 }

/-- An environment with no tokens, no open PRs and no branches. -/
def emptyEnv : Env :=
  { oauthToken := fun _ => none
    openPRs := []
    issueContext := fun _ => { identifier := "", title := "", description := none }
    branches := [] }

/-- An open PR whose head branch differs from every run's branch but whose
title (like every title) contains the empty string. -/
def prStub : PullRequest :=
  { number := 7, html_url := "https://example.test/pr/7", title := "anything"
    head_ref := "other" }

/-- A run whose correlation-created record carries an empty Linear issue
identifier (as `pendingTrigger.linear_issue_identifier || ''` produces). -/
def c3Run : WorkflowRun :=
  { sampleRun 42 "iss-9" "in_progress" with
    linear_issue_identifier := ""
    branch_name := "agent/x" }

/-- An environment whose only open PR is `prStub`. -/
def c3Env : Env := { emptyEnv with openPRs := [prStub] }

/-- The PR, environment, database and run of the C3 witness scenario. -/
def c3wPR : PullRequest :=
  { number := 9, html_url := "https://example.test/pr/9", title := "ABC-1: fix"
    head_ref := "agent/abc-1" }

/-- Witness environment: one open PR on the run's feature branch. -/
def c3wEnv : Env := { emptyEnv with openPRs := [c3wPR] }

/-- Witness run record. -/
def c3wRun : WorkflowRun := sampleRun 42 "iss-1" "in_progress"

/-- Witness database: just the run. -/
def c3wDB : DBState := { emptyDB with workflowRuns := [c3wRun] }

/-- A config with a missing GitHub owner. -/
def c8Config : TeamConfig :=
  { linear_workspace_id := "ws-1", linear_team_id := "team-1"
    github_installation_id := some 5, github_owner := none
    github_repo := some "api", github_branch := "main" }

/-! ## Support lemmas -/

/-! Injectivity of the decimal rendering, via a decode round-trip. -/

theorem digitChar_toNat {d : Nat} (h : d < 10) : (digitChar d).toNat = 48 + d := by
  interval_cases d <;> rfl

theorem decode_natDigitsLEFuel :
    ∀ (fuel n : Nat), n ≤ fuel → decodeDigitsLE (natDigitsLEFuel fuel n) = n := by
  intro fuel
  induction fuel with
  | zero =>
    intro n hn
    have : n = 0 := by omega
    subst this
    simp [natDigitsLEFuel, decodeDigitsLE, digitChar_toNat]
  | succ m ih =>
    intro n hn
    by_cases h : n < 10
    · simp [natDigitsLEFuel, h, decodeDigitsLE, digitChar_toNat h]
    · have hdiv : n / 10 ≤ m := by omega
      have hmod : n % 10 < 10 := Nat.mod_lt _ (by omega)
      simp [natDigitsLEFuel, h, decodeDigitsLE, digitChar_toNat hmod, ih _ hdiv]
      omega

theorem decode_natDigitsLE (n : Nat) : decodeDigitsLE (natDigitsLE n) = n :=
  decode_natDigitsLEFuel n n (Nat.le_refl n)

theorem natDigitsLE_injective : Function.Injective natDigitsLE := by
  intro a b h
  have := decode_natDigitsLE a
  rw [h, decode_natDigitsLE] at this
  omega

theorem natToString_injective : Function.Injective natToString := by
  intro a b h
  have hdata : (natDigitsLE a).reverse = (natDigitsLE b).reverse :=
    congrArg String.data h
  exact natDigitsLE_injective (List.reverse_injective hdata)

theorem string_data_append (a b : String) : (a ++ b).data = a.data ++ b.data := by
  cases a; cases b; rfl

theorem string_append_right_injective (p : String) :
    Function.Injective (fun s => p ++ s) := by
  intro a b h
  have := congrArg String.data h
  rw [string_data_append, string_data_append] at this
  cases a; cases b
  exact congrArg String.mk (by simpa using List.append_cancel_left this)

theorem char_le_toNat {a b : Char} : a ≤ b ↔ a.toNat ≤ b.toNat := by
  rw [Char.le_def, UInt32.le_def, BitVec.le_def]
  exact Iff.rfl

theorem char_toNat_inj {a b : Char} (h : a.toNat = b.toNat) : a = b := by
  have := congrArg Char.ofNat h
  rwa [Char.ofNat_toNat, Char.ofNat_toNat] at this

theorem nat_or_eq_zero {a b : Nat} : a ||| b = 0 ↔ a = 0 ∧ b = 0 := by
  constructor
  · intro h
    constructor <;>
      · apply Nat.eq_of_testBit_eq
        intro i
        have := congrArg (fun x => Nat.testBit x i) h
        simp [Nat.testBit_lor] at this ⊢
        tauto
  · rintro ⟨rfl, rfl⟩; rfl

theorem orFoldl_eq_zero {α : Type} (f : α → Nat) :
    ∀ (l : List α) (init : Nat),
      (l.foldl (fun r x => r ||| f x) init = 0 ↔ init = 0 ∧ ∀ x ∈ l, f x = 0) := by
  intro l
  induction l with
  | nil => simp
  | cons y ys ih =>
    intro init
    rw [List.foldl_cons, ih]
    rw [nat_or_eq_zero]
    constructor
    · rintro ⟨⟨h1, h2⟩, h3⟩
      exact ⟨h1, by simpa [h2] using h3⟩
    · rintro ⟨h1, h2⟩
      exact ⟨⟨h1, h2 y (by simp)⟩, fun x hx => h2 x (by simp [hx])⟩

theorem zip_xor_zero_iff :
    ∀ (la lb : List Char), la.length = lb.length →
      ((∀ p ∈ la.zip lb, p.1.toNat ^^^ p.2.toNat = 0) ↔ la = lb) := by
  intro la
  induction la with
  | nil =>
    intro lb h
    cases lb with
    | nil => simp
    | cons b bs => simp at h
  | cons a as ih =>
    intro lb h
    cases lb with
    | nil => simp at h
    | cons b bs =>
      simp only [List.length_cons, Nat.add_right_cancel_iff] at h
      constructor
      · intro hall
        have hhead : a.toNat ^^^ b.toNat = 0 := hall (a, b) (by simp [List.zip_cons_cons])
        have : a = b := char_toNat_inj (Nat.xor_eq_zero.mp hhead)
        have htail : as = bs :=
          (ih bs h).mp (fun p hp => hall p (by simp [List.zip_cons_cons, hp]))
        rw [this, htail]
      · rintro heq
        injection heq with h1 h2
        subst h1; subst h2
        intro p hp
        simp only [List.zip_cons_cons, List.mem_cons] at hp
        rcases hp with rfl | hp
        · simp
        · have := ((ih as rfl).mpr rfl) p hp
          exact this

theorem string_eq_iff_data (a b : String) : a = b ↔ a.data = b.data := by
  constructor
  · intro h; rw [h]
  · intro h; cases a; cases b; exact congrArg String.mk h

theorem timingSafeEqual_iff (a b : String) : timingSafeEqual a b = true ↔ a = b := by
  unfold timingSafeEqual
  by_cases hlen : a.length = b.length
  · rw [if_neg (fun hne => hne hlen)]
    have hdl : a.data.length = b.data.length := hlen
    rw [beq_iff_eq]
    rw [orFoldl_eq_zero (fun p : Char × Char => p.1.toNat ^^^ p.2.toNat)]
    rw [string_eq_iff_data]
    rw [← zip_xor_zero_iff a.data b.data hdl]
    exact and_iff_right rfl
  · rw [if_pos hlen]
    apply Iff.intro
    · intro h; exact absurd h (by simp)
    · intro heq; exact absurd (congrArg String.length heq) hlen

theorem verifyLinearSignature_iff (hmac : String → String → List UInt8)
    (body sig secret : String) :
    verifyLinearSignature hmac body sig secret = true ↔
      sig = arrayBufferToHex (hmac secret body) := by
  unfold verifyLinearSignature
  exact timingSafeEqual_iff _ _

theorem startsWith_sha_append (x : String) :
    jsStartsWith ("sha256=" ++ x) "sha256=" = true := by
  unfold jsStartsWith
  rw [List.isPrefixOf_iff_prefix]
  exact ⟨x.data, (string_data_append "sha256=" x).symm⟩

theorem jsSlice_sha_append (x : String) : jsSlice ("sha256=" ++ x) 7 = x := by
  unfold jsSlice
  rw [string_data_append]
  have h7 : ("sha256=" : String).data.length = 7 := rfl
  rw [show (7 : Nat) = ("sha256=" : String).data.length from h7.symm, List.drop_left]

theorem verifyGitHubSignature_iff (hmac : String → String → List UInt8)
    (body sig secret : String) :
    verifyGitHubSignature hmac body sig secret = true ↔
      sig = "sha256=" ++ arrayBufferToHex (hmac secret body) := by
  unfold verifyGitHubSignature
  by_cases hp : jsStartsWith sig "sha256=" = true
  · rw [hp]
    simp only [Bool.not_true, Bool.false_eq_true, if_false]
    rw [timingSafeEqual_iff]
    constructor
    · intro hslice
      have hpre := (List.isPrefixOf_iff_prefix).mp hp
      obtain ⟨t, ht⟩ := hpre
      have hslice' : jsSlice sig 7 = arrayBufferToHex (hmac secret body) := hslice
      have hsig : sig = "sha256=" ++ (⟨t⟩ : String) := by
        rw [string_eq_iff_data, string_data_append]
        exact ht.symm
      rw [hsig, jsSlice_sha_append] at hslice'
      rw [hsig, hslice']
    · intro hsig
      rw [hsig, jsSlice_sha_append]
  · have hp' : jsStartsWith sig "sha256=" = false := by
      cases h : jsStartsWith sig "sha256=" with
      | true => exact absurd h hp
      | false => rfl
    rw [hp']
    simp only [Bool.not_false, if_true]
    constructor
    · intro h; exact absurd h (by simp)
    · intro hsig
      rw [hsig] at hp
      exact absurd (startsWith_sha_append _) hp

theorem hexDigitChar_fin_inj :
    ∀ (a b : Fin 16), hexDigitChar a.val = hexDigitChar b.val → a = b := by decide

theorem uint8_toNat_lt (a : UInt8) : a.toNat < 256 := a.toNat_lt

theorem byteToHex_inj {a b : UInt8} (h : byteToHex a = byteToHex b) : a = b := by
  unfold byteToHex at h
  injection h with h1 h23
  injection h23 with h2 _
  have ha := uint8_toNat_lt a
  have hb := uint8_toNat_lt b
  have hd1 : a.toNat / 16 = b.toNat / 16 := by
    have := hexDigitChar_fin_inj ⟨a.toNat / 16, by omega⟩ ⟨b.toNat / 16, by omega⟩ h1
    exact congrArg Fin.val this
  have hd2 : a.toNat % 16 = b.toNat % 16 := by
    have := hexDigitChar_fin_inj ⟨a.toNat % 16, by omega⟩ ⟨b.toNat % 16, by omega⟩ h2
    exact congrArg Fin.val this
  apply UInt8.ext
  omega

theorem hexFlatten_inj :
    ∀ (as bs : List UInt8),
      (as.map byteToHex).flatten = (bs.map byteToHex).flatten → as = bs := by
  intro as
  induction as with
  | nil =>
    intro bs h
    cases bs with
    | nil => rfl
    | cons b tl => simp [byteToHex] at h
  | cons a tl ih =>
    intro bs h
    cases bs with
    | nil => simp [byteToHex] at h
    | cons b tl' =>
      simp only [List.map_cons, List.flatten_cons, byteToHex, List.cons_append,
        List.nil_append, List.cons.injEq] at h
      obtain ⟨h1, h2, h3⟩ := h
      have hab : a = b := byteToHex_inj (by simp [byteToHex, h1, h2])
      have htl : tl = tl' := ih tl' (by
        simpa [byteToHex] using h3)
      rw [hab, htl]

theorem arrayBufferToHex_inj : Function.Injective arrayBufferToHex := by
  intro a b h
  exact hexFlatten_inj a b (congrArg String.data h)

theorem isHexLowerChar_hexDigitChar (d : Nat) :
    isHexLowerChar (hexDigitChar d) = true := by
  unfold hexDigitChar
  split <;> decide

theorem arrayBufferToHex_all_hex (bytes : List UInt8) :
    (arrayBufferToHex bytes).data.all isHexLowerChar = true := by
  unfold arrayBufferToHex
  induction bytes with
  | nil => rfl
  | cons b tl ih =>
    simp only [List.map_cons, List.flatten_cons, List.all_append, ih,
      Bool.and_true]
    simp [byteToHex, isHexLowerChar_hexDigitChar]

/-- C6: signature verification returns `true` exactly when the signature is
the lowercase hex digest of HMAC-SHA256(secret, body) — for the GitHub
variant prefixed with the literal `sha256=` — so any tampered body (one with
a different digest) and any signature of different length or content verify
`false`; the digest string is entirely lowercase hex.  Both verifiers are
total boolean functions: a bad signature yields `false`, not an exception. -/
theorem signature_verification_correct (hmac : String → String → List UInt8)
    (body sig secret : String) :
    (verifyLinearSignature hmac body sig secret = true ↔
      sig = arrayBufferToHex (hmac secret body))
    ∧ (verifyGitHubSignature hmac body sig secret = true ↔
      sig = "sha256=" ++ arrayBufferToHex (hmac secret body))
    ∧ (∀ body' : String, hmac secret body' ≠ hmac secret body →
        verifyLinearSignature hmac body' (arrayBufferToHex (hmac secret body))
          secret = false)
    ∧ (arrayBufferToHex (hmac secret body)).data.all isHexLowerChar = true := by
  refine ⟨verifyLinearSignature_iff hmac body sig secret,
    verifyGitHubSignature_iff hmac body sig secret, ?_,
    arrayBufferToHex_all_hex _⟩
  intro body' hne
  cases hv : verifyLinearSignature hmac body'
      (arrayBufferToHex (hmac secret body)) secret with
  | false => rfl
  | true =>
    have := (verifyLinearSignature_iff hmac body'
      (arrayBufferToHex (hmac secret body)) secret).mp hv
    exact absurd (arrayBufferToHex_inj this).symm hne

/-- C6 witness: a body whose digest differs from the signed one fails
verification against the original signature. -/
theorem signature_verification_correct_witness :
    verifyLinearSignature (fun _ b => if b == "x" then [(1 : UInt8)] else [0])
      "y"
      (arrayBufferToHex
        ((fun (_ b : String) => if b == "x" then [(1 : UInt8)] else [0]) "s" "x"))
      "s" = false :=
  (signature_verification_correct
    (fun _ b => if b == "x" then [(1 : UInt8)] else [0]) "x" "sig" "s").2.2.1
    "y" (by decide)

/-! ## Branch Namer proofs -/

theorem jsCharToLower_fixed_of_class {c : Char} (h : isBranchClassChar c = true) :
    jsCharToLower c = c := by
  have hno : ¬('A' ≤ c ∧ c ≤ 'Z') := by
    rintro ⟨h1, h2⟩
    rw [char_le_toNat] at h1 h2
    simp at h1 h2
    simp only [isBranchClassChar, Bool.or_eq_true, Bool.and_eq_true,
      decide_eq_true_eq, beq_iff_eq] at h
    rcases h with (⟨ha, hb⟩ | ⟨ha, hb⟩) | rfl
    · rw [char_le_toNat] at ha hb; simp at ha hb; omega
    · rw [char_le_toNat] at ha hb; simp at ha hb; omega
    · simp at h1
  simp [jsCharToLower, hno]

theorem sanitizeIdentifier_all_class (s : String) :
    ∀ c ∈ (sanitizeIdentifier s).data, isBranchClassChar c = true := by
  intro c hc
  have hc' : c ∈ (jsToLowerCase s).data.map
      (fun c => if isBranchClassChar c then c else '-') := hc
  obtain ⟨d, _, rfl⟩ := List.mem_map.mp hc'
  by_cases hd : isBranchClassChar d = true
  · simp [hd]
  · have hd' : isBranchClassChar d = false := by
      cases h' : isBranchClassChar d with
      | true => exact absurd h' hd
      | false => rfl
    simp [hd']
    decide

theorem generateBranchName_data (s : String) :
    (generateBranchName s).data
      = 'a' :: 'g' :: 'e' :: 'n' :: 't' :: '/' :: (sanitizeIdentifier s).data := by
  unfold generateBranchName
  rw [string_data_append]
  rfl

theorem sanitizeIdentifier_length (s : String) :
    (sanitizeIdentifier s).data.length = s.data.length := by
  unfold sanitizeIdentifier jsToLowerCase
  simp

theorem matchesBranchPattern_generate {s : String} (h : s ≠ "") :
    matchesBranchPattern (generateBranchName s) = true := by
  have hne : (sanitizeIdentifier s).data ≠ [] := by
    intro hnil
    have hlen := sanitizeIdentifier_length s
    rw [hnil] at hlen
    have : s.data = [] := List.eq_nil_of_length_eq_zero hlen.symm
    exact h ((string_eq_iff_data s "").mpr this)
  have hshow : matchesBranchPattern (generateBranchName s)
      = (!(sanitizeIdentifier s).data.isEmpty
          && (sanitizeIdentifier s).data.all isBranchClassChar) := by
    unfold matchesBranchPattern
    rw [generateBranchName_data]
    rfl
  rw [hshow]
  have h1 : (sanitizeIdentifier s).data.isEmpty = false := by
    cases hd : (sanitizeIdentifier s).data with
    | nil => exact absurd hd hne
    | cons c tl => rfl
  have h2 : (sanitizeIdentifier s).data.all isBranchClassChar = true := by
    rw [List.all_eq_true]
    exact sanitizeIdentifier_all_class s
  rw [h1, h2]
  rfl

theorem generateBranchName_lowercase (s : String) :
    jsToLowerCase (generateBranchName s) = generateBranchName s := by
  rw [string_eq_iff_data]
  have : (jsToLowerCase (generateBranchName s)).data
      = (generateBranchName s).data.map jsCharToLower := rfl
  rw [this]
  have hall : ∀ c ∈ (generateBranchName s).data, jsCharToLower c = c := by
    intro c hc
    rw [generateBranchName_data] at hc
    simp only [List.mem_cons] at hc
    rcases hc with rfl | rfl | rfl | rfl | rfl | rfl | hc
    · rfl
    · rfl
    · rfl
    · rfl
    · rfl
    · rfl
    · exact jsCharToLower_fixed_of_class (sanitizeIdentifier_all_class s c hc)
  calc (generateBranchName s).data.map jsCharToLower
      = (generateBranchName s).data.map id := List.map_congr_left hall
    _ = (generateBranchName s).data := List.map_id _

theorem suffixedName_inj (base : String) :
    Function.Injective (suffixedName base) := by
  intro a b h
  unfold suffixedName at h
  have := string_append_right_injective (base ++ "-") h
  exact natToString_injective this

theorem contains_iff_mem {l : List String} {x : String} :
    l.contains x = true ↔ x ∈ l := List.elem_iff

theorem probeSuffix_succ (base : String) (ex : List String) (n s : Nat) :
    probeSuffix base ex (n + 1) s =
      if ex.contains (suffixedName base s) then probeSuffix base ex n (s + 1)
      else s := rfl

theorem probeSuffix_spec (base : String) (ex : List String) :
    ∀ (fuel s : Nat), ∃ j, probeSuffix base ex fuel s = s + j ∧ j ≤ fuel
      ∧ (∀ i, i < j → ex.contains (suffixedName base (s + i)) = true)
      ∧ (j < fuel → ex.contains (suffixedName base (s + j)) = false) := by
  intro fuel
  induction fuel with
  | zero =>
    intro s
    exact ⟨0, by simp [probeSuffix], by omega, fun i hi => absurd hi (by omega),
      fun h => absurd h (by omega)⟩
  | succ n ih =>
    intro s
    cases hc : ex.contains (suffixedName base s) with
    | true =>
      obtain ⟨j', h1, h2, h3, h4⟩ := ih (s + 1)
      refine ⟨j' + 1, ?_, by omega, ?_, ?_⟩
      · rw [probeSuffix_succ, hc, if_pos rfl, h1]
        omega
      · intro i hi
        cases i with
        | zero => simpa using hc
        | succ k =>
          have hk : s + (k + 1) = (s + 1) + k := by omega
          rw [hk]
          exact h3 k (by omega)
      · intro hlt
        have hk : s + (j' + 1) = (s + 1) + j' := by omega
        rw [hk]
        exact h4 (by omega)
    | false =>
      refine ⟨0, ?_, by omega, fun i hi => absurd hi (by omega), fun _ => ?_⟩
      · rw [probeSuffix_succ, hc]
        simp
      · simpa using hc

theorem nodup_subset_length {l1 l2 : List String} (h : l1.Nodup) (hs : l1 ⊆ l2) :
    l1.length ≤ l2.length := by
  have h1 : l1.toFinset.card = l1.length := List.toFinset_card_of_nodup h
  have h2 : l1.toFinset ⊆ l2.toFinset := by
    intro x hx
    simp only [List.mem_toFinset] at hx ⊢
    exact hs hx
  have h3 := Finset.card_le_card h2
  have h4 := l2.toFinset_card_le
  omega

theorem exists_unused_suffix (base : String) (ex : List String) (s : Nat) :
    ∃ i, i ≤ ex.length ∧ ex.contains (suffixedName base (s + i)) = false := by
  by_contra hcon
  push_neg at hcon
  have hall : ∀ i, i ≤ ex.length → ex.contains (suffixedName base (s + i)) = true := by
    intro i hi
    cases h : ex.contains (suffixedName base (s + i)) with
    | true => rfl
    | false => exact absurd h (hcon i hi)
  have hnd : ((List.range (ex.length + 1)).map
      (fun i => suffixedName base (s + i))).Nodup := by
    apply List.Nodup.map ?_ (List.nodup_range _)
    intro a b hab
    have := suffixedName_inj base hab
    omega
  have hsub : ((List.range (ex.length + 1)).map
      (fun i => suffixedName base (s + i))) ⊆ ex := by
    intro x hx
    obtain ⟨i, hi, rfl⟩ := List.mem_map.mp hx
    rw [List.mem_range] at hi
    exact contains_iff_mem.mp (hall i (by omega))
  have hle := nodup_subset_length hnd hsub
  simp at hle

theorem findAvailableBranchName_spec (identifier : String) (ex : List String) :
    (findAvailableBranchName identifier ex) ∉ ex
    ∧ (generateBranchName identifier ∉ ex →
        findAvailableBranchName identifier ex = generateBranchName identifier)
    ∧ (generateBranchName identifier ∈ ex →
        ∃ k, 2 ≤ k
          ∧ findAvailableBranchName identifier ex
              = suffixedName (generateBranchName identifier) k
          ∧ suffixedName (generateBranchName identifier) k ∉ ex
          ∧ ∀ j, 2 ≤ j → j < k →
              suffixedName (generateBranchName identifier) j ∈ ex) := by
  cases hmem : ex.contains (generateBranchName identifier) with
  | false =>
    have hnotmem : generateBranchName identifier ∉ ex := by
      intro hm
      rw [contains_iff_mem.mpr hm] at hmem
      exact absurd hmem (by simp)
    have hif : findAvailableBranchName identifier ex
        = generateBranchName identifier := by
      unfold findAvailableBranchName
      rw [hmem]
      rfl
    rw [hif]
    exact ⟨hnotmem, fun _ => rfl, fun hm => absurd hm hnotmem⟩
  | true =>
    have hmem' : generateBranchName identifier ∈ ex := contains_iff_mem.mp hmem
    obtain ⟨j, h1, h2, h3, h4⟩ :=
      probeSuffix_spec (generateBranchName identifier) ex (ex.length + 1) 2
    have hjlt : j < ex.length + 1 := by
      rcases Nat.lt_or_ge j (ex.length + 1) with h | h
      · exact h
      · exfalso
        obtain ⟨i, hi, hfree⟩ :=
          exists_unused_suffix (generateBranchName identifier) ex 2
        have := h3 i (by omega)
        rw [this] at hfree
        exact absurd hfree (by simp)
    have hfree : ex.contains
        (suffixedName (generateBranchName identifier) (2 + j)) = false := h4 hjlt
    have hif : findAvailableBranchName identifier ex
        = suffixedName (generateBranchName identifier) (2 + j) := by
      unfold findAvailableBranchName
      rw [hmem, h1]
      rfl
    rw [hif]
    have hnotmem : suffixedName (generateBranchName identifier) (2 + j) ∉ ex := by
      intro hm
      rw [contains_iff_mem.mpr hm] at hfree
      exact absurd hfree (by simp)
    refine ⟨hnotmem, fun hne => absurd hmem' hne, fun _ => ⟨2 + j, by omega, rfl,
      hnotmem, ?_⟩⟩
    intro j' hj2 hjk
    have := h3 (j' - 2) (by omega)
    have hj' : 2 + (j' - 2) = j' := by omega
    rw [hj'] at this
    exact contains_iff_mem.mp this

/-- C7 (amended): for every identifier, `generateBranchName` is lowercase
and — provided the identifier is nonempty — matches `^agent/[a-z0-9-]+$`
(the empty identifier yields `agent/`, which has no character after the
slash and so fails the `+`); it is a pure function by construction.  For
every identifier and finite list of existing names,
`findAvailableBranchName` returns a name not in the list, returns exactly
the base name when it is absent, and otherwise probes `-2`, `-3`, …
linearly upward, returning the first unused suffix. -/
theorem branch_namer_spec (identifier : String) (ex : List String) :
    jsToLowerCase (generateBranchName identifier) = generateBranchName identifier
    ∧ (identifier ≠ "" → matchesBranchPattern (generateBranchName identifier) = true)
    ∧ findAvailableBranchName identifier ex ∉ ex
    ∧ (generateBranchName identifier ∉ ex →
        findAvailableBranchName identifier ex = generateBranchName identifier)
    ∧ (generateBranchName identifier ∈ ex →
        ∃ k, 2 ≤ k
          ∧ findAvailableBranchName identifier ex
              = suffixedName (generateBranchName identifier) k
          ∧ suffixedName (generateBranchName identifier) k ∉ ex
          ∧ ∀ j, 2 ≤ j → j < k →
              suffixedName (generateBranchName identifier) j ∈ ex) := by
  obtain ⟨h1, h2, h3⟩ := findAvailableBranchName_spec identifier ex
  exact ⟨generateBranchName_lowercase identifier,
    fun hne => matchesBranchPattern_generate hne, h1, h2, h3⟩

/-- C7 counterexample: the claim quantifies over every identifier string,
but the empty identifier produces `agent/`, which does not match
`^agent/[a-z0-9-]+$`. -/
theorem branch_namer_empty_counterexample :
    matchesBranchPattern (generateBranchName "") = false := by decide

/-- C7 witness: Scenario A/B inputs. -/
theorem branch_namer_spec_witness :
    matchesBranchPattern (generateBranchName "ABC-123") = true
    ∧ findAvailableBranchName "ABC-123" ["main", "agent/abc-123"]
        ∉ (["main", "agent/abc-123"] : List String)
    ∧ findAvailableBranchName "ABC-123" ["main", "agent/abc-123"]
        = "agent/abc-123-2"
    ∧ generateBranchName "ABC-123" = "agent/abc-123" :=
  ⟨(branch_namer_spec "ABC-123" ["main", "agent/abc-123"]).2.1 (by decide),
   (branch_namer_spec "ABC-123" ["main", "agent/abc-123"]).2.2.1,
   by decide, by decide⟩

/-! ## WorkflowRun status transitions -/

/-- C1 counterexample: a run already `'completed'` is moved back to
`'in_progress'` by a subsequent `updateWorkflowRun` call — the store applies
the update unconditionally. -/
theorem updateWorkflowRun_completed_not_terminal :
    (updateWorkflowRun [sampleRun 7 "iss-1" "completed"] 7
        { status := some "in_progress" } 1).map (fun r => r.status)
      = ["in_progress"] := by decide

/-- C1 (amended): `updateWorkflowRun` applies the requested status
unconditionally — a `status='in_progress'` update on a run whose stored
status is `'completed'` (or anything else) rewrites the stored status to
`'in_progress'`; terminality of `'completed'` is not enforced by the store
and is left to callers.  Rows with a different run id are untouched. -/
theorem updateWorkflowRun_overwrites_status (runs : List WorkflowRun)
    (gid now : Nat) :
    (∀ r ∈ runs, r.github_run_id = gid →
        applyWorkflowRunUpdate { status := some "in_progress" } now r
            ∈ updateWorkflowRun runs gid { status := some "in_progress" } now
          ∧ (applyWorkflowRunUpdate { status := some "in_progress" } now r).status
              = "in_progress")
    ∧ (∀ r ∈ runs, r.github_run_id ≠ gid →
        r ∈ updateWorkflowRun runs gid { status := some "in_progress" } now) := by
  have hdef : updateWorkflowRun runs gid { status := some "in_progress" } now
      = runs.map (fun r => if r.github_run_id == gid
          then applyWorkflowRunUpdate { status := some "in_progress" } now r
          else r) := rfl
  constructor
  · intro r hr hgid
    constructor
    · rw [hdef]
      have hfr : (if r.github_run_id == gid
          then applyWorkflowRunUpdate { status := some "in_progress" } now r
          else r) = applyWorkflowRunUpdate { status := some "in_progress" } now r := by
        rw [if_pos (beq_iff_eq.mpr hgid)]
      rw [← hfr]
      exact List.mem_map_of_mem _ hr
    · rfl
  · intro r hr hgid
    rw [hdef]
    have hfr : (if r.github_run_id == gid
        then applyWorkflowRunUpdate { status := some "in_progress" } now r
        else r) = r := by
      rw [if_neg]
      intro hbe
      exact hgid (beq_iff_eq.mp hbe)
    rw [← hfr]
    exact List.mem_map_of_mem _ hr

/-- C1 witness: the amended claim at a concrete completed run. -/
theorem updateWorkflowRun_overwrites_status_witness :
    applyWorkflowRunUpdate { status := some "in_progress" } 1
        (sampleRun 7 "iss-1" "completed")
      ∈ updateWorkflowRun [sampleRun 7 "iss-1" "completed"] 7
          { status := some "in_progress" } 1 :=
  ((updateWorkflowRun_overwrites_status [sampleRun 7 "iss-1" "completed"] 7 1).1
    (sampleRun 7 "iss-1" "completed") (by simp) (by decide)).1

/-! ## Correlation matching -/

theorem latestStep_ne_none {α : Type} (f : α → Nat) (acc : Option α) (x : α) :
    latestStep f acc x ≠ none := by
  cases acc with
  | none => simp [latestStep]
  | some b =>
    simp only [latestStep]
    by_cases h : f x > f b
    · simp [h]
    · simp [h]

theorem latestFold_spec {α : Type} (f : α → Nat) :
    ∀ (l : List α) (acc : Option α),
      (l.foldl (latestStep f) acc = none → l = [] ∧ acc = none)
      ∧ (∀ x, l.foldl (latestStep f) acc = some x →
          (x ∈ l ∨ acc = some x)
          ∧ (∀ y ∈ l, f y ≤ f x)
          ∧ (∀ b, acc = some b → f b ≤ f x)) := by
  intro l
  induction l with
  | nil =>
    intro acc
    refine ⟨fun h => ⟨rfl, h⟩, fun x hx => ⟨Or.inr hx, by simp, ?_⟩⟩
    intro b hb
    rw [hb] at hx
    injection hx with hbx
    rw [hbx]
  | cons a tl ih =>
    intro acc
    have hstep : ∃ c, latestStep f acc a = some c ∧ f a ≤ f c
        ∧ (∀ b, acc = some b → f b ≤ f c) := by
      cases acc with
      | none => exact ⟨a, rfl, Nat.le_refl _, fun b hb => by cases hb⟩
      | some b =>
        by_cases h : f a > f b
        · refine ⟨a, by simp [latestStep, h], Nat.le_refl _, ?_⟩
          intro b' hb'
          injection hb' with hbb
          rw [← hbb]
          omega
        · refine ⟨b, by simp [latestStep, h], by omega, ?_⟩
          intro b' hb'
          injection hb' with hbb
          rw [hbb]
    obtain ⟨c, hc, hac, hbc⟩ := hstep
    constructor
    · intro h
      rw [List.foldl_cons] at h
      have := (ih (latestStep f acc a)).1 h
      exact absurd (this.2 ▸ hc) (by rw [this.2] at hc; exact fun _ => (latestStep_ne_none f acc a) this.2)
    · intro x hx
      rw [List.foldl_cons] at hx
      obtain ⟨hmem, hmax, hacc⟩ := (ih (latestStep f acc a)).2 x hx
      have hcx : f c ≤ f x := hacc c hc
      refine ⟨?_, ?_, ?_⟩
      · rcases hmem with h | h
        · exact Or.inl (List.mem_cons_of_mem _ h)
        · rw [hc] at h
          injection h with hcx'
          cases acc with
          | none =>
            have : c = a := by
              have := hc
              simp [latestStep] at this
              exact this.symm
            exact Or.inl (by rw [← hcx', this]; exact List.mem_cons_self _ _)
          | some b =>
            by_cases hgt : f a > f b
            · have : c = a := by
                have := hc
                simp [latestStep, hgt] at this
                exact this.symm
              exact Or.inl (by rw [← hcx', this]; exact List.mem_cons_self _ _)
            · have : c = b := by
                have := hc
                simp [latestStep, hgt] at this
                exact this.symm
              exact Or.inr (by rw [← hcx', this])
      · intro y hy
        rcases List.mem_cons.mp hy with rfl | hy
        · omega
        · exact hmax y hy
      · intro b hb
        have := hbc b hb
        omega

theorem matchPendingWorkflowTrigger_spec (triggers : List PendingWorkflowTrigger)
    (o r b : String) :
    (∀ t, matchPendingWorkflowTrigger triggers o r b = some t →
        t ∈ triggers ∧ t.github_owner = o ∧ t.github_repo = r
          ∧ t.branch_name = b ∧ t.matched_at = none
          ∧ ∀ u ∈ triggers, u.github_owner = o → u.github_repo = r →
              u.branch_name = b → u.matched_at = none →
              u.created_at ≤ t.created_at)
    ∧ (matchPendingWorkflowTrigger triggers o r b = none ↔
        ∀ u ∈ triggers, ¬(u.github_owner = o ∧ u.github_repo = r
          ∧ u.branch_name = b ∧ u.matched_at = none)) := by
  have hdef : matchPendingWorkflowTrigger triggers o r b
      = (triggers.filter (fun t => t.github_owner == o && t.github_repo == r
          && t.branch_name == b && t.matched_at == none)).foldl
        (latestStep (fun t : PendingWorkflowTrigger => t.created_at)) none := rfl
  have hfold := latestFold_spec
    (fun t : PendingWorkflowTrigger => t.created_at)
    (triggers.filter (fun t => t.github_owner == o && t.github_repo == r
      && t.branch_name == b && t.matched_at == none)) none
  have hpred : ∀ u : PendingWorkflowTrigger,
      ((u.github_owner == o && u.github_repo == r && u.branch_name == b
        && u.matched_at == none) = true)
      ↔ (u.github_owner = o ∧ u.github_repo = r ∧ u.branch_name = b
          ∧ u.matched_at = none) := by
    intro u
    simp only [Bool.and_eq_true, beq_iff_eq]
    tauto
  constructor
  · intro t ht
    rw [hdef] at ht
    have ht' := hfold.2 t ht
    have hmem : t ∈ triggers.filter (fun t => t.github_owner == o
        && t.github_repo == r && t.branch_name == b && t.matched_at == none) := by
      rcases ht'.1 with h | h
      · exact h
      · cases h
    have hmf := List.mem_filter.mp hmem
    have hp := (hpred t).mp hmf.2
    refine ⟨hmf.1, hp.1, hp.2.1, hp.2.2.1, hp.2.2.2, ?_⟩
    intro u hu h1 h2 h3 h4
    exact ht'.2.1 u (List.mem_filter.mpr ⟨hu, (hpred u).mpr ⟨h1, h2, h3, h4⟩⟩)
  · constructor
    · intro hnone u hu hp
      rw [hdef] at hnone
      have hmem : u ∈ triggers.filter (fun t => t.github_owner == o
          && t.github_repo == r && t.branch_name == b && t.matched_at == none) :=
        List.mem_filter.mpr ⟨hu, (hpred u).mpr hp⟩
      have := (hfold.1 hnone).1
      rw [this] at hmem
      cases hmem
    · intro hall
      have hfe : triggers.filter (fun t => t.github_owner == o
          && t.github_repo == r && t.branch_name == b && t.matched_at == none)
            = [] := by
        rw [List.filter_eq_nil_iff]
        intro u hu
        intro hp
        exact hall u hu ((hpred u).mp hp)
      rw [hdef, hfe]
      rfl

/-- C2: for a `workflow_run` event with no existing run record, the
correlation step matches only unmatched triggers with the event's exact
`(owner, repo, head branch)`, preferring the greatest `created_at`; on a
match it appends a run built from the trigger's session/issue fields and
stamps the trigger's `matched_at`, leaving all other triggers untouched; a
trigger with non-null `matched_at` is never matched; and with no matching
trigger the handler leaves the state unchanged and performs no outbound
call. -/
theorem correlation_step_spec (env : Env) (st : DBState) (ev : WorkflowRunEvent)
    (now : Nat)
    (habsent : getWorkflowRun st.workflowRuns ev.runId = none) :
    (∀ t, matchPendingWorkflowTrigger st.pendingTriggers ev.owner ev.repo
        ev.headBranch = some t →
      (t ∈ st.pendingTriggers ∧ t.github_owner = ev.owner
        ∧ t.github_repo = ev.repo ∧ t.branch_name = ev.headBranch
        ∧ t.matched_at = none
        ∧ ∀ u ∈ st.pendingTriggers, u.github_owner = ev.owner →
            u.github_repo = ev.repo → u.branch_name = ev.headBranch →
            u.matched_at = none → u.created_at ≤ t.created_at)
      ∧ (correlateWorkflowRun st ev now).2 = some (correlatedRow st ev t now)
      ∧ (correlateWorkflowRun st ev now).1.workflowRuns
          = st.workflowRuns ++ [correlatedRow st ev t now]
      ∧ (correlatedRow st ev t now).github_run_id = ev.runId
      ∧ (correlatedRow st ev t now).agent_session_id = t.agent_session_id
      ∧ (correlatedRow st ev t now).linear_issue_id = t.linear_issue_id
      ∧ (correlatedRow st ev t now).linear_issue_identifier
          = t.linear_issue_identifier.getD ""
      ∧ (correlatedRow st ev t now).linear_workspace_id = t.linear_workspace_id
      ∧ (correlateWorkflowRun st ev now).1.pendingTriggers
          = markPendingWorkflowMatched st.pendingTriggers t.id now
      ∧ (∀ u ∈ (correlateWorkflowRun st ev now).1.pendingTriggers,
          u.id = t.id → u.matched_at = some now)
      ∧ (∀ u ∈ st.pendingTriggers, u.id ≠ t.id →
          u ∈ (correlateWorkflowRun st ev now).1.pendingTriggers))
    ∧ ((∀ u ∈ st.pendingTriggers, ¬(u.github_owner = ev.owner
          ∧ u.github_repo = ev.repo ∧ u.branch_name = ev.headBranch
          ∧ u.matched_at = none)) →
        handleWorkflowRun env st ev now = (st, [])) := by
  constructor
  · intro t hm
    have hspec := (matchPendingWorkflowTrigger_spec st.pendingTriggers ev.owner
      ev.repo ev.headBranch).1 t hm
    have hcorr : correlateWorkflowRun st ev now
        = ({ st with
              workflowRuns := st.workflowRuns ++ [correlatedRow st ev t now]
              pendingTriggers :=
                markPendingWorkflowMatched st.pendingTriggers t.id now },
           some (correlatedRow st ev t now)) := by
      unfold correlateWorkflowRun
      rw [habsent, hm]
      rfl
    refine ⟨hspec, by rw [hcorr], by rw [hcorr], rfl, rfl, rfl, rfl, rfl,
      by rw [hcorr], ?_, ?_⟩
    · intro u hu hid
      rw [hcorr] at hu
      obtain ⟨v, hv, hfv⟩ := List.mem_map.mp hu
      by_cases hvid : (v.id == t.id) = true
      · rw [if_pos hvid] at hfv
        rw [← hfv]
      · rw [if_neg (by simpa using hvid)] at hfv
        rw [← hfv] at hid
        exact absurd hid (by simpa using hvid)
    · intro u hu hid
      rw [hcorr]
      show u ∈ markPendingWorkflowMatched st.pendingTriggers t.id now
      unfold markPendingWorkflowMatched
      have hfu : (if u.id == t.id then { u with matched_at := some now } else u)
          = u := by
        rw [if_neg (by simpa using hid)]
      rw [← hfu]
      exact List.mem_map_of_mem _ hu
  · intro hall
    have hnone : matchPendingWorkflowTrigger st.pendingTriggers ev.owner ev.repo
        ev.headBranch = none :=
      ((matchPendingWorkflowTrigger_spec st.pendingTriggers ev.owner ev.repo
        ev.headBranch).2).mpr hall
    have hcorr : correlateWorkflowRun st ev now = (st, none) := by
      unfold correlateWorkflowRun
      rw [habsent, hnone]
    unfold handleWorkflowRun
    rw [hcorr]

/-- C2 witness: a concrete unmatched trigger is matched and the run row is
created from it. -/
theorem correlation_step_spec_witness :
    (correlateWorkflowRun { emptyDB with pendingTriggers := [sampleTrigger] }
        sampleEvent 7).1.workflowRuns
      = [correlatedRow { emptyDB with pendingTriggers := [sampleTrigger] }
          sampleEvent sampleTrigger 7]
    ∧ (correlatedRow { emptyDB with pendingTriggers := [sampleTrigger] }
        sampleEvent sampleTrigger 7).agent_session_id
        = sampleTrigger.agent_session_id := by
  have h := (correlation_step_spec emptyEnv
    { emptyDB with pendingTriggers := [sampleTrigger] } sampleEvent 7
    (by decide)).1 sampleTrigger (by decide)
  exact ⟨h.2.2.1, h.2.2.2.2.1⟩

/-! ## Workflow completion -/

theorem jsIncludes_append (x u y : String) : jsIncludes (x ++ u ++ y) u = true := by
  simp only [jsIncludes, decide_eq_true_eq]
  refine ⟨x.data, y.data, ?_⟩
  rw [string_data_append, string_data_append]

theorem chooseCompletionPRs_branch {env : Env} {run : WorkflowRun}
    {pr : PullRequest} {rest : List PullRequest}
    (hB : listPullRequestsForBranch env.openPRs run.branch_name = pr :: rest) :
    chooseCompletionPRs env run = pr :: rest := by
  unfold chooseCompletionPRs
  rw [hB]
  simp

theorem chooseCompletionPRs_title {env : Env} {run : WorkflowRun}
    (hB : listPullRequestsForBranch env.openPRs run.branch_name = [])
    (hid : run.linear_issue_identifier ≠ "") :
    chooseCompletionPRs env run
      = searchPullRequestsByTitle env.openPRs run.linear_issue_identifier := by
  unfold chooseCompletionPRs
  rw [hB]
  simp [hid]

theorem chooseCompletionPRs_none {env : Env} {run : WorkflowRun}
    (hB : listPullRequestsForBranch env.openPRs run.branch_name = [])
    (h : run.linear_issue_identifier = ""
      ∨ searchPullRequestsByTitle env.openPRs run.linear_issue_identifier = []) :
    chooseCompletionPRs env run = [] := by
  unfold chooseCompletionPRs
  rw [hB]
  rcases h with h | h
  · simp [h]
  · rw [h]
    by_cases hid : run.linear_issue_identifier = ""
    · simp [hid]
    · simp [hid]

theorem mem_updateWorkflowRun {runs : List WorkflowRun} {gid now : Nat}
    {u : WorkflowRunUpdate} {r : WorkflowRun} (hr : r ∈ runs)
    (hgid : r.github_run_id = gid)
    (hcond : (u.status == none && u.conclusion == none && u.prNumber == none
      && u.prUrl == none) = false) :
    applyWorkflowRunUpdate u now r ∈ updateWorkflowRun runs gid u now := by
  unfold updateWorkflowRun
  rw [hcond, if_neg (by simp)]
  have hfr : (if r.github_run_id == gid then applyWorkflowRunUpdate u now r
      else r) = applyWorkflowRunUpdate u now r := by
    rw [if_pos (beq_iff_eq.mpr hgid)]
  rw [← hfr]
  exact List.mem_map_of_mem _ hr

/-- C3 (amended): on conclusion `success`, the completion flow takes candidate
PRs first from the exact-branch list and — only when that is empty AND the
run's ticket identifier is nonempty — from the case-insensitive title search
over the first ten open PRs; the first candidate's number and URL are
persisted and attached and the success response contains its URL; with no
candidate the run completes with its PR fields unchanged and the
analysis-only response is sent; on any other conclusion the error activity
contains the link built from `(owner, repo, run id)`. -/
theorem completion_search_spec (env : Env) (st : DBState) (run : WorkflowRun)
    (conclusion : String) (now : Nat) (hr : run ∈ st.workflowRuns) :
    (∀ (pr : PullRequest) (rest : List PullRequest),
      conclusion = "success" →
      listPullRequestsForBranch env.openPRs run.branch_name = pr :: rest →
      ∃ r', r' ∈ (handleWorkflowComplete env st run conclusion now).1.workflowRuns
        ∧ r'.github_run_id = run.github_run_id ∧ r'.status = "completed"
        ∧ r'.pr_number = some pr.number ∧ r'.pr_url = some pr.html_url
        ∧ Effect.createAttachment run.linear_issue_id
            ("PR #" ++ natToString pr.number) pr.html_url
            ∈ (handleWorkflowComplete env st run conclusion now).2
        ∧ ∃ body, Effect.sendResponse run.agent_session_id body
            ∈ (handleWorkflowComplete env st run conclusion now).2
          ∧ jsIncludes body pr.html_url = true)
    ∧ (∀ (pr : PullRequest) (rest : List PullRequest),
      conclusion = "success" →
      listPullRequestsForBranch env.openPRs run.branch_name = [] →
      run.linear_issue_identifier ≠ "" →
      searchPullRequestsByTitle env.openPRs run.linear_issue_identifier
        = pr :: rest →
      ∃ r', r' ∈ (handleWorkflowComplete env st run conclusion now).1.workflowRuns
        ∧ r'.github_run_id = run.github_run_id ∧ r'.status = "completed"
        ∧ r'.pr_number = some pr.number ∧ r'.pr_url = some pr.html_url
        ∧ Effect.createAttachment run.linear_issue_id
            ("PR #" ++ natToString pr.number) pr.html_url
            ∈ (handleWorkflowComplete env st run conclusion now).2
        ∧ ∃ body, Effect.sendResponse run.agent_session_id body
            ∈ (handleWorkflowComplete env st run conclusion now).2
          ∧ jsIncludes body pr.html_url = true)
    ∧ (conclusion = "success" →
      listPullRequestsForBranch env.openPRs run.branch_name = [] →
      (run.linear_issue_identifier = ""
        ∨ searchPullRequestsByTitle env.openPRs run.linear_issue_identifier
            = []) →
      (handleWorkflowComplete env st run conclusion now).2
        = [Effect.sendResponse run.agent_session_id
            "✅ Analysis complete! No code changes were necessary."]
      ∧ ∃ r', r' ∈ (handleWorkflowComplete env st run conclusion now).1.workflowRuns
        ∧ r'.github_run_id = run.github_run_id ∧ r'.status = "completed"
        ∧ r'.pr_number = run.pr_number ∧ r'.pr_url = run.pr_url)
    ∧ (conclusion ≠ "success" →
      (handleWorkflowComplete env st run conclusion now).2
        = [Effect.sendError run.agent_session_id
            ("❌ Workflow " ++ conclusion ++ ".\n\n[View logs]("
              ++ workflowRunUrl run.github_owner run.github_repo
                  run.github_run_id ++ ")")]
      ∧ ∃ body, Effect.sendError run.agent_session_id body
          ∈ (handleWorkflowComplete env st run conclusion now).2
        ∧ jsIncludes body (workflowRunUrl run.github_owner run.github_repo
            run.github_run_id) = true) := by
  refine ⟨?_, ?_, ?_, ?_⟩
  · intro pr rest hcs hB
    subst hcs
    have hch := chooseCompletionPRs_branch hB
    have hres : handleWorkflowComplete env st run "success" now
        = (logEvent (updateWorkflowRun' st run.github_run_id
              { status := some "completed", conclusion := some (some "success")
                prNumber := some (some pr.number)
                prUrl := some (some pr.html_url) } now)
            (some run.id) (some run.agent_session_id) "workflow_completed"
            (some ("Workflow completed with conclusion: " ++ "success")) now,
           [Effect.createAttachment run.linear_issue_id
              ("PR #" ++ natToString pr.number) pr.html_url,
            Effect.sendResponse run.agent_session_id
              ("✅ Implementation complete!\n\n[PR #" ++ natToString pr.number
                ++ ": " ++ run.linear_issue_identifier ++ "](" ++ pr.html_url
                ++ ")")]) := by
      unfold handleWorkflowComplete
      rw [hch]
      rfl
    refine ⟨applyWorkflowRunUpdate
      { status := some "completed", conclusion := some (some "success")
        prNumber := some (some pr.number), prUrl := some (some pr.html_url) }
      now run, ?_, rfl, rfl, rfl, rfl, ?_, ?_⟩
    · rw [hres]
      exact mem_updateWorkflowRun hr rfl rfl
    · rw [hres]
      simp
    · refine ⟨"✅ Implementation complete!\n\n[PR #" ++ natToString pr.number
        ++ ": " ++ run.linear_issue_identifier ++ "](" ++ pr.html_url
        ++ ")", ?_, ?_⟩
      · rw [hres]
        simp
      · exact jsIncludes_append _ _ _
  · intro pr rest hcs hB hid hT
    subst hcs
    have hch : chooseCompletionPRs env run = pr :: rest := by
      rw [chooseCompletionPRs_title hB hid, hT]
    have hres : handleWorkflowComplete env st run "success" now
        = (logEvent (updateWorkflowRun' st run.github_run_id
              { status := some "completed", conclusion := some (some "success")
                prNumber := some (some pr.number)
                prUrl := some (some pr.html_url) } now)
            (some run.id) (some run.agent_session_id) "workflow_completed"
            (some ("Workflow completed with conclusion: " ++ "success")) now,
           [Effect.createAttachment run.linear_issue_id
              ("PR #" ++ natToString pr.number) pr.html_url,
            Effect.sendResponse run.agent_session_id
              ("✅ Implementation complete!\n\n[PR #" ++ natToString pr.number
                ++ ": " ++ run.linear_issue_identifier ++ "](" ++ pr.html_url
                ++ ")")]) := by
      unfold handleWorkflowComplete
      rw [hch]
      rfl
    refine ⟨applyWorkflowRunUpdate
      { status := some "completed", conclusion := some (some "success")
        prNumber := some (some pr.number), prUrl := some (some pr.html_url) }
      now run, ?_, rfl, rfl, rfl, rfl, ?_, ?_⟩
    · rw [hres]
      exact mem_updateWorkflowRun hr rfl rfl
    · rw [hres]
      simp
    · refine ⟨"✅ Implementation complete!\n\n[PR #" ++ natToString pr.number
        ++ ": " ++ run.linear_issue_identifier ++ "](" ++ pr.html_url
        ++ ")", ?_, ?_⟩
      · rw [hres]
        simp
      · exact jsIncludes_append _ _ _
  · intro hcs hB hnone
    subst hcs
    have hch := chooseCompletionPRs_none hB hnone
    have hres : handleWorkflowComplete env st run "success" now
        = (logEvent (updateWorkflowRun' st run.github_run_id
              { status := some "completed"
                conclusion := some (some "success") } now)
            (some run.id) (some run.agent_session_id) "workflow_completed"
            (some ("Workflow completed with conclusion: " ++ "success")) now,
           [Effect.sendResponse run.agent_session_id
              "✅ Analysis complete! No code changes were necessary."]) := by
      unfold handleWorkflowComplete
      rw [hch]
      rfl
    refine ⟨by rw [hres], applyWorkflowRunUpdate
      { status := some "completed", conclusion := some (some "success") }
      now run, ?_, rfl, rfl, rfl, rfl⟩
    rw [hres]
    exact mem_updateWorkflowRun hr rfl rfl
  · intro hns
    have hbe : (conclusion == "success") = false := by
      cases h : conclusion == "success" with
      | true => exact absurd (beq_iff_eq.mp h) hns
      | false => rfl
    have hres : handleWorkflowComplete env st run conclusion now
        = (logEvent (updateWorkflowRun' st run.github_run_id
              { status := some "completed"
                conclusion := some (some conclusion) } now)
            (some run.id) (some run.agent_session_id) "workflow_completed"
            (some ("Workflow completed with conclusion: " ++ conclusion)) now,
           [Effect.sendError run.agent_session_id
              ("❌ Workflow " ++ conclusion ++ ".\n\n[View logs]("
                ++ workflowRunUrl run.github_owner run.github_repo
                    run.github_run_id ++ ")")]) := by
      unfold handleWorkflowComplete
      rw [hbe]
      rfl
    refine ⟨by rw [hres], ⟨"❌ Workflow " ++ conclusion ++ ".\n\n[View logs]("
      ++ workflowRunUrl run.github_owner run.github_repo run.github_run_id
      ++ ")", ?_, ?_⟩⟩
    · rw [hres]
      simp
    · exact jsIncludes_append _ _ _

/-- C3 counterexample: with an empty ticket identifier the branch search
yields nothing and a PR whose title contains the identifier
case-insensitively exists (every title contains the empty string) — but the
code skips the title search entirely (the guard also requires a truthy
identifier) and persists the run with no PR fields, sending the
analysis-only response. -/
theorem completion_search_empty_identifier_counterexample :
    jsIncludes (jsToLowerCase prStub.title) (jsToLowerCase "") = true
    ∧ (handleWorkflowComplete c3Env { emptyDB with workflowRuns := [c3Run] }
        c3Run "success" 3).2
      = [Effect.sendResponse c3Run.agent_session_id
          "✅ Analysis complete! No code changes were necessary."]
    ∧ ∀ r' ∈ (handleWorkflowComplete c3Env
        { emptyDB with workflowRuns := [c3Run] } c3Run "success" 3).1.workflowRuns,
        r'.pr_number = none := by
  refine ⟨by decide, by decide, by decide⟩

/-- C3 witness: Scenario C — a result exists for the feature branch; its
number and URL are persisted, an attachment is created, and the response
contains its URL. -/
theorem completion_search_spec_witness :
    ∃ r', r' ∈ (handleWorkflowComplete c3wEnv c3wDB c3wRun "success" 3).1.workflowRuns
      ∧ r'.github_run_id = c3wRun.github_run_id
      ∧ r'.status = "completed"
      ∧ r'.pr_number = some c3wPR.number
      ∧ r'.pr_url = some c3wPR.html_url
      ∧ Effect.createAttachment c3wRun.linear_issue_id
          ("PR #" ++ natToString c3wPR.number) c3wPR.html_url
          ∈ (handleWorkflowComplete c3wEnv c3wDB c3wRun "success" 3).2
      ∧ ∃ body, Effect.sendResponse c3wRun.agent_session_id body
          ∈ (handleWorkflowComplete c3wEnv c3wDB c3wRun "success" 3).2
        ∧ jsIncludes body c3wPR.html_url = true :=
  (completion_search_spec c3wEnv c3wDB c3wRun "success" 3 (by decide)).1
    c3wPR [] rfl (by decide)

/-! ## Webhook endpoint processing order -/

/-- C4: on both endpoints the steps run in the order signature verification,
ledger check, ledger mark, handlers: a request failing verification is
rejected with a 401 before any ledger write, RunLog write, or handler logic
(state unchanged, no effects); a duplicate is dropped after the check with
no mark and no handler; and a fresh valid event is marked processed before
the routed handler runs — the handler observes a ledger that already
contains the event id. -/
theorem webhook_processing_order (hmac : String → String → List UInt8)
    (secret : String)
    (innerL : LinearWebhook → DBState → DBState × List Effect × Option String)
    (innerG : DBState → DBState × List Effect × Option String)
    (logFails : Bool) (st : DBState) (body signature eventType : String)
    (deliveryId : Option String) (payload : LinearWebhook) (now : Nat) :
    (verifyLinearSignature hmac body signature secret = false →
      handleLinearWebhook hmac secret innerL logFails st body signature payload
          now
        = (st, { status := 401, tag := "error" }, []))
    ∧ (verifyGitHubSignature hmac body signature secret = false →
      handleGitHubWebhook hmac secret innerG st body signature eventType
          deliveryId now
        = (st, { status := 401, tag := "error" }, []))
    ∧ (verifyLinearSignature hmac body signature secret = true →
      isWebhookProcessed st (generateWebhookId payload now) "linear" = true →
      handleLinearWebhook hmac secret innerL logFails st body signature payload
          now
        = (st, { status := 200, tag := "already_processed" }, []))
    ∧ (verifyGitHubSignature hmac body signature secret = true →
      isWebhookProcessed st
          ("github-" ++ eventType ++ "-" ++ jsOrElse deliveryId (natToString now))
          "github" = true →
      handleGitHubWebhook hmac secret innerG st body signature eventType
          deliveryId now
        = (st, { status := 200, tag := "already_processed" }, []))
    ∧ (verifyLinearSignature hmac body signature secret = true →
      isWebhookProcessed st (generateWebhookId payload now) "linear" = false →
      isWebhookProcessed
          (markWebhookProcessed st (generateWebhookId payload now) "linear")
          (generateWebhookId payload now) "linear" = true
      ∧ ∀ st2 effs, innerL payload
            (markWebhookProcessed st (generateWebhookId payload now) "linear")
          = (st2, effs, none) →
        handleLinearWebhook hmac secret innerL logFails st body signature
            payload now
          = (st2, { status := 200, tag := "ok" }, effs))
    ∧ (verifyGitHubSignature hmac body signature secret = true →
      isWebhookProcessed st
          ("github-" ++ eventType ++ "-" ++ jsOrElse deliveryId (natToString now))
          "github" = false →
      isWebhookProcessed
          (markWebhookProcessed st
            ("github-" ++ eventType ++ "-" ++ jsOrElse deliveryId
              (natToString now)) "github")
          ("github-" ++ eventType ++ "-" ++ jsOrElse deliveryId (natToString now))
          "github" = true
      ∧ ∀ st2 effs, innerG
            (markWebhookProcessed st
              ("github-" ++ eventType ++ "-" ++ jsOrElse deliveryId
                (natToString now)) "github")
          = (st2, effs, none) →
        handleGitHubWebhook hmac secret innerG st body signature eventType
            deliveryId now
          = (st2, { status := 200, tag := "ok" }, effs)) := by
  refine ⟨?_, ?_, ?_, ?_, ?_, ?_⟩
  · intro hv
    unfold handleLinearWebhook
    rw [hv]
    rfl
  · intro hv
    unfold handleGitHubWebhook
    rw [hv]
    rfl
  · intro hv hdup
    unfold handleLinearWebhook
    rw [hv, hdup]
    rfl
  · intro hv hdup
    unfold handleGitHubWebhook
    rw [hv, hdup]
    rfl
  · intro hv hfresh
    unfold isWebhookProcessed at hfresh
    constructor
    · have hnotmem : (generateWebhookId payload now, "linear")
          ∉ st.processedWebhooks := by
        intro hm
        have hc : st.processedWebhooks.contains
            (generateWebhookId payload now, "linear") = true :=
          List.elem_iff.mpr hm
        rw [hc] at hfresh
        exact absurd hfresh (by simp)
      unfold isWebhookProcessed markWebhookProcessed
      rw [if_neg (fun hc => hnotmem (List.elem_iff.mp hc))]
      simp
    · intro st2 effs hinner
      unfold handleLinearWebhook
      rw [hv]
      unfold isWebhookProcessed
      rw [hfresh, hinner]
      rfl
  · intro hv hfresh
    unfold isWebhookProcessed at hfresh
    constructor
    · have hnotmem : ("github-" ++ eventType ++ "-"
            ++ jsOrElse deliveryId (natToString now), "github")
          ∉ st.processedWebhooks := by
        intro hm
        have hc : st.processedWebhooks.contains
            ("github-" ++ eventType ++ "-"
              ++ jsOrElse deliveryId (natToString now), "github") = true :=
          List.elem_iff.mpr hm
        rw [hc] at hfresh
        exact absurd hfresh (by simp)
      unfold isWebhookProcessed markWebhookProcessed
      rw [if_neg (fun hc => hnotmem (List.elem_iff.mp hc))]
      simp
    · intro st2 effs hinner
      unfold handleGitHubWebhook
      rw [hv]
      unfold isWebhookProcessed
      rw [hfresh, hinner]
      rfl

/-- C4 witness: invalid-signature rejection and mark-before-handler on the
CI endpoint, at concrete inputs. -/
theorem webhook_processing_order_witness :
    handleGitHubWebhook (fun _ _ => ([] : List UInt8)) "s"
        (fun st => (st, [], none)) emptyDB "b" "bad" "workflow_run" (some "d1") 0
      = (emptyDB, { status := 401, tag := "error" }, [])
    ∧ isWebhookProcessed
        (markWebhookProcessed emptyDB
          ("github-" ++ "workflow_run" ++ "-"
            ++ jsOrElse (some "d1") (natToString 0)) "github")
        ("github-" ++ "workflow_run" ++ "-"
          ++ jsOrElse (some "d1") (natToString 0)) "github" = true
    ∧ handleGitHubWebhook (fun _ _ => ([] : List UInt8)) "s"
        (fun st => (st, [], none)) emptyDB "b" "sha256=" "workflow_run"
        (some "d1") 0
      = (markWebhookProcessed emptyDB
          ("github-" ++ "workflow_run" ++ "-"
            ++ jsOrElse (some "d1") (natToString 0)) "github",
         { status := 200, tag := "ok" }, []) := by
  refine ⟨(webhook_processing_order (fun _ _ => ([] : List UInt8)) "s"
      (fun _ st => (st, [], none)) (fun st => (st, [], none)) false emptyDB "b"
      "bad" "workflow_run" (some "d1") (LinearWebhook.other "x") 0).2.1
      (by decide), ?_, ?_⟩
  · exact ((webhook_processing_order (fun _ _ => ([] : List UInt8)) "s"
      (fun _ st => (st, [], none)) (fun st => (st, [], none)) false emptyDB "b"
      "sha256=" "workflow_run" (some "d1") (LinearWebhook.other "x")
      0).2.2.2.2.2 (by decide) (by decide)).1
  · exact ((webhook_processing_order (fun _ _ => ([] : List UInt8)) "s"
      (fun _ st => (st, [], none)) (fun st => (st, [], none)) false emptyDB "b"
      "sha256=" "workflow_run" (some "d1") (LinearWebhook.other "x")
      0).2.2.2.2.2 (by decide) (by decide)).2 _ [] rfl

/-- C5 (amended): when a routed handler throws after the event was marked
processed, both endpoints catch the error and acknowledge with a 200 (no
transport retry is triggered); the ticketing-system endpoint best-effort
writes a RunLog `webhook_error` entry — a failure of that logging leaves the
original error handling and the acknowledgment unchanged — while the CI
endpoint writes no RunLog entry at all (console logging only). -/
theorem error_acknowledgement_spec (hmac : String → String → List UInt8)
    (secret : String)
    (innerL : LinearWebhook → DBState → DBState × List Effect × Option String)
    (innerG : DBState → DBState × List Effect × Option String)
    (logFails : Bool) (st : DBState) (body signature eventType : String)
    (deliveryId : Option String) (payload : LinearWebhook) (now : Nat) :
    (verifyLinearSignature hmac body signature secret = true →
      isWebhookProcessed st (generateWebhookId payload now) "linear" = false →
      ∀ st2 effs err, innerL payload
          (markWebhookProcessed st (generateWebhookId payload now) "linear")
        = (st2, effs, some err) →
      (logFails = false →
        handleLinearWebhook hmac secret innerL logFails st body signature
            payload now
          = (logEvent st2 none (linearErrorSessionId payload) "webhook_error"
              (some ("Error handling webhook: " ++ err)) now,
             { status := 200, tag := "error" }, effs))
      ∧ (logFails = true →
        handleLinearWebhook hmac secret innerL logFails st body signature
            payload now
          = (st2, { status := 200, tag := "error" }, effs)))
    ∧ (verifyGitHubSignature hmac body signature secret = true →
      isWebhookProcessed st
          ("github-" ++ eventType ++ "-" ++ jsOrElse deliveryId (natToString now))
          "github" = false →
      ∀ st2 effs err, innerG
          (markWebhookProcessed st
            ("github-" ++ eventType ++ "-" ++ jsOrElse deliveryId
              (natToString now)) "github")
        = (st2, effs, some err) →
      handleGitHubWebhook hmac secret innerG st body signature eventType
          deliveryId now
        = (st2, { status := 200, tag := "error" }, effs)
      ∧ (handleGitHubWebhook hmac secret innerG st body signature eventType
          deliveryId now).1.runLog = st2.runLog) := by
  constructor
  · intro hv hfresh st2 effs err hinner
    unfold isWebhookProcessed at hfresh
    constructor
    · intro hlf
      subst hlf
      unfold handleLinearWebhook
      rw [hv]
      unfold isWebhookProcessed
      rw [hfresh, hinner]
      rfl
    · intro hlf
      subst hlf
      unfold handleLinearWebhook
      rw [hv]
      unfold isWebhookProcessed
      rw [hfresh, hinner]
      rfl
  · intro hv hfresh st2 effs err hinner
    unfold isWebhookProcessed at hfresh
    have heq : handleGitHubWebhook hmac secret innerG st body signature
        eventType deliveryId now = (st2, { status := 200, tag := "error" },
          effs) := by
      unfold handleGitHubWebhook
      rw [hv]
      unfold isWebhookProcessed
      rw [hfresh, hinner]
      rfl
    exact ⟨heq, by rw [heq]⟩

/-- C5 counterexample: on the CI endpoint a verified, non-duplicate event
whose handler throws is acknowledged with a 200 but no RunLog
`webhook_error` entry is written — the claim's "for every inbound event"
fails for this endpoint. -/
theorem github_error_no_runlog_counterexample :
    verifyGitHubSignature (fun _ _ => ([] : List UInt8)) "b" "sha256=" "s" = true
    ∧ (handleGitHubWebhook (fun _ _ => ([] : List UInt8)) "s"
        (fun st => (st, [], some "boom")) emptyDB "b" "sha256=" "workflow_run"
        (some "d1") 0).2.1
      = { status := 200, tag := "error" }
    ∧ (handleGitHubWebhook (fun _ _ => ([] : List UInt8)) "s"
        (fun st => (st, [], some "boom")) emptyDB "b" "sha256=" "workflow_run"
        (some "d1") 0).1.runLog = [] := by
  refine ⟨by decide, by decide, by decide⟩

/-- C5 witness: the amended claim at concrete inputs — the Linear endpoint
logs `webhook_error` and still acks 200. -/
theorem error_acknowledgement_spec_witness :
    handleLinearWebhook (fun _ _ => ([] : List UInt8)) "s"
        (fun _ st => (st, [], some "boom")) false emptyDB "b" ""
        (LinearWebhook.other "x") 0
      = (logEvent (markWebhookProcessed emptyDB
            (generateWebhookId (LinearWebhook.other "x") 0) "linear") none
          (linearErrorSessionId (LinearWebhook.other "x")) "webhook_error"
          (some ("Error handling webhook: " ++ "boom")) 0,
         { status := 200, tag := "error" }, []) :=
  ((error_acknowledgement_spec (fun _ _ => ([] : List UInt8)) "s"
    (fun _ st => (st, [], some "boom")) (fun st => (st, [], none)) false emptyDB
    "b" "" "workflow_run" (some "d1") (LinearWebhook.other "x") 0).1
    (by decide) (by decide) _ [] "boom" rfl).1 rfl

/-! ## Dispatch configuration guard -/

/-- C8: `triggerImplementation` with a TeamConfig lacking target coordinates
(falsy owner, repo or installation id) throws immediately: the state is
unchanged and the effect trace is empty — no issue-context fetch, no branch
listing, no trigger row, no activity, no log entry, no dispatch.  With full
coordinates no error is thrown. -/
theorem trigger_config_guard (env : Env) (st : DBState)
    (agentSessionId issueId issueIdentifier : String) (config : TeamConfig)
    (now : Nat) :
    ((jsFalsyStr config.github_owner || jsFalsyStr config.github_repo
        || jsFalsyNat config.github_installation_id) = true →
      triggerImplementation env st agentSessionId issueId issueIdentifier
          config now
        = (st, [], some "Team config missing GitHub configuration"))
    ∧ ((jsFalsyStr config.github_owner || jsFalsyStr config.github_repo
        || jsFalsyNat config.github_installation_id) = false →
      (triggerImplementation env st agentSessionId issueId issueIdentifier
          config now).2.2 = none) := by
  constructor
  · intro h
    unfold triggerImplementation
    rw [h]
    rfl
  · intro h
    unfold triggerImplementation
    rw [h]
    rfl

/-- C8 witness: a concrete unconfigured team. -/
theorem trigger_config_guard_witness :
    triggerImplementation emptyEnv emptyDB "sess-1" "iss-1" "ABC-1" c8Config 0
      = (emptyDB, [], some "Team config missing GitHub configuration") :=
  (trigger_config_guard emptyEnv emptyDB "sess-1" "iss-1" "ABC-1" c8Config
    0).1 (by decide)

/-! ## Unassignment with no active run -/

theorem getActiveWorkflowRunByIssue_eq_none {runs : List WorkflowRun}
    {issueId : String}
    (h : ∀ r ∈ runs, r.linear_issue_id = issueId → r.status = "completed") :
    getActiveWorkflowRunByIssue runs issueId = none := by
  have hfe : runs.filter (fun r => r.linear_issue_id == issueId
      && r.status != "completed") = [] := by
    rw [List.filter_eq_nil_iff]
    intro r hr hp
    simp only [Bool.and_eq_true, beq_iff_eq, bne_iff_ne] at hp
    exact hp.2 (h r hr hp.1)
  unfold getActiveWorkflowRunByIssue
  rw [hfe]
  rfl

/-- C9: for an unassignment event whose issue has no active (non-completed)
WorkflowRun, the handler sends no conversational activity, makes no CI call,
changes no table, and appends exactly the one `agent_unassigned` RunLog
entry. -/
theorem unassign_no_active_noop (env : Env) (st : DBState)
    (issueId issueIdentifier : String) (now : Nat)
    (h : ∀ r ∈ st.workflowRuns, r.linear_issue_id = issueId →
      r.status = "completed") :
    handleInboxNotification env st issueId issueIdentifier now
      = (logEvent st none none "agent_unassigned"
          (some ("Agent unassigned from " ++ issueIdentifier)) now, [])
    ∧ (handleInboxNotification env st issueId issueIdentifier now).1.workflowRuns
        = st.workflowRuns
    ∧ (handleInboxNotification env st issueId issueIdentifier now).1.pendingTriggers
        = st.pendingTriggers
    ∧ (handleInboxNotification env st issueId issueIdentifier now).1.pendingConfigs
        = st.pendingConfigs
    ∧ (handleInboxNotification env st issueId issueIdentifier now).1.processedWebhooks
        = st.processedWebhooks
    ∧ (handleInboxNotification env st issueId issueIdentifier now).1.runLog
        = st.runLog ++
          [{ workflow_run_id := none, agent_session_id := none
             event_type := "agent_unassigned"
             message := some ("Agent unassigned from " ++ issueIdentifier)
             created_at := now }] := by
  have hnone : getActiveWorkflowRunByIssue
      (logEvent st none none "agent_unassigned"
        (some ("Agent unassigned from " ++ issueIdentifier)) now).workflowRuns
      issueId = none :=
    getActiveWorkflowRunByIssue_eq_none (fun r hr => h r hr)
  have heq : handleInboxNotification env st issueId issueIdentifier now
      = (logEvent st none none "agent_unassigned"
          (some ("Agent unassigned from " ++ issueIdentifier)) now, []) := by
    unfold handleInboxNotification handleInboxNotificationCore
    rw [hnone]
  refine ⟨heq, ?_, ?_, ?_, ?_, ?_⟩ <;> rw [heq] <;> rfl

/-- C9 witness: a completed run for the issue (and an unrelated active run)
exists, but no active run for this issue — nothing happens beyond the one
log entry. -/
theorem unassign_no_active_noop_witness :
    handleInboxNotification emptyEnv
        { emptyDB with workflowRuns := [sampleRun 7 "iss-1" "completed"] }
        "iss-1" "ABC-1" 4
      = (logEvent { emptyDB with workflowRuns := [sampleRun 7 "iss-1" "completed"] }
          none none "agent_unassigned" (some ("Agent unassigned from " ++ "ABC-1"))
          4, []) :=
  (unassign_no_active_noop emptyEnv
    { emptyDB with workflowRuns := [sampleRun 7 "iss-1" "completed"] }
    "iss-1" "ABC-1" 4 (by decide)).1

/-! ## Unassignment dedup exemption -/

/-- C10: the dedup id of an unassignment webhook mixes in the clock, so two
deliveries of the identical payload at different times get distinct ids and
the second is never reported as already processed — unassignment events are
effectively exempt from deduplication — whereas a session-lifecycle event's
id is independent of the clock, and a CI event's id depends only on its
delivery id. -/
theorem unassign_dedup_exempt (st : DBState)
    (issueId issueIdentifier action sessionId teamId iid iident : String)
    (activityId : Option String) (eventType d : String) (t1 t2 : Nat) :
    (t1 ≠ t2 → generateWebhookId (.unassign issueId issueIdentifier) t1
        ≠ generateWebhookId (.unassign issueId issueIdentifier) t2)
    ∧ generateWebhookId (.agentSession action sessionId activityId iid iident
          teamId) t1
        = generateWebhookId (.agentSession action sessionId activityId iid
          iident teamId) t2
    ∧ (d ≠ "" → ("github-" ++ eventType ++ "-" ++ jsOrElse (some d)
          (natToString t1))
        = ("github-" ++ eventType ++ "-" ++ jsOrElse (some d) (natToString t2)))
    ∧ (t1 ≠ t2 →
        isWebhookProcessed st
            (generateWebhookId (.unassign issueId issueIdentifier) t2) "linear"
          = false →
        isWebhookProcessed
            (markWebhookProcessed st
              (generateWebhookId (.unassign issueId issueIdentifier) t1)
              "linear")
            (generateWebhookId (.unassign issueId issueIdentifier) t2) "linear"
          = false) := by
  have hid : t1 ≠ t2 → generateWebhookId (.unassign issueId issueIdentifier) t1
      ≠ generateWebhookId (.unassign issueId issueIdentifier) t2 := by
    intro hne heq
    unfold generateWebhookId at heq
    exact hne (natToString_injective
      (string_append_right_injective ("linear-unassign-" ++ issueId ++ "-") heq))
  refine ⟨hid, rfl, ?_, ?_⟩
  · intro hd
    have h1 : jsOrElse (some d) (natToString t1) = d := by
      show (if (d == "") = true then natToString t1 else d) = d
      rw [if_neg (fun hb => hd (by simpa using hb))]
    have h2 : jsOrElse (some d) (natToString t2) = d := by
      show (if (d == "") = true then natToString t2 else d) = d
      rw [if_neg (fun hb => hd (by simpa using hb))]
    rw [h1, h2]
  · intro hne hfr
    have hid' := hid hne
    unfold isWebhookProcessed at hfr
    have hnm2 : (generateWebhookId (.unassign issueId issueIdentifier) t2,
        "linear") ∉ st.processedWebhooks := by
      intro hm
      have hc : st.processedWebhooks.contains
          (generateWebhookId (.unassign issueId issueIdentifier) t2, "linear")
          = true := List.elem_iff.mpr hm
      rw [hc] at hfr
      exact absurd hfr (by simp)
    unfold isWebhookProcessed markWebhookProcessed
    by_cases hc1 : st.processedWebhooks.contains
        (generateWebhookId (.unassign issueId issueIdentifier) t1, "linear")
        = true
    · rw [if_pos hc1]
      exact hfr
    · rw [if_neg hc1]
      have hne2 : (generateWebhookId (.unassign issueId issueIdentifier) t2,
          "linear") ∉ st.processedWebhooks
            ++ [(generateWebhookId (.unassign issueId issueIdentifier) t1,
              "linear")] := by
        intro hm
        rcases List.mem_append.mp hm with hm | hm
        · exact hnm2 hm
        · rw [List.mem_singleton] at hm
          have := congrArg Prod.fst hm
          exact hid' this.symm
      cases hcc : (st.processedWebhooks
          ++ [(generateWebhookId (.unassign issueId issueIdentifier) t1,
            "linear")]).contains
          (generateWebhookId (.unassign issueId issueIdentifier) t2, "linear")
          with
      | false => rfl
      | true =>
        have hmem : (generateWebhookId (.unassign issueId issueIdentifier) t2,
            "linear") ∈ st.processedWebhooks
              ++ [(generateWebhookId (.unassign issueId issueIdentifier) t1,
                "linear")] := List.elem_iff.mp hcc
        exact absurd hmem hne2

/-- C10 witness: two deliveries of the same unassignment payload at times 0
and 1 get distinct ids, and the second is not deduplicated after the first
is marked. -/
theorem unassign_dedup_exempt_witness :
    generateWebhookId (.unassign "iss-1" "ABC-1") 0
      ≠ generateWebhookId (.unassign "iss-1" "ABC-1") 1
    ∧ isWebhookProcessed
        (markWebhookProcessed emptyDB
          (generateWebhookId (.unassign "iss-1" "ABC-1") 0) "linear")
        (generateWebhookId (.unassign "iss-1" "ABC-1") 1) "linear" = false :=
  ⟨(unassign_dedup_exempt emptyDB "iss-1" "ABC-1" "prompted" "sess-1" "team-1"
      "iss-1" "ABC-1" none "workflow_run" "d1" 0 1).1 (by decide),
   (unassign_dedup_exempt emptyDB "iss-1" "ABC-1" "prompted" "sess-1" "team-1"
      "iss-1" "ABC-1" none "workflow_run" "d1" 0 1).2.2.2 (by decide)
      (by decide)⟩

end LinearAgent
